import Mathlib

/-!
Verification of the SDS (safety-data-sheet) extraction engine in
`tasks.py` of the `render-redis-backend` repository.

Texts and field values are modelled as `List Char` (Python `str`).
Each regular expression used by the source is translated into a bespoke
scanner over `List Char` that reproduces the leftmost-match semantics of
`re.search` / `re.findall(...)[0]` for the specific pattern, including
case-insensitivity and the behaviour of `.` with and without `re.DOTALL`.
Python floats are modelled as exact decimals (the numeric literals of
the source are decimals, the operations used are exact on decimals,
and every concrete value used in the theorems below is far from a
rounding tie).
-/

namespace SDS

/-- Python whitespace for `str.strip` and the regex class `\s` (ASCII range). -/
def pySpace (c : Char) : Bool :=
  c = ' ' || c = '\t' || c = '\n' || c = '\r' || c = '\x0B' || c = '\x0C'

/-- `str.strip()`: remove whitespace from both ends. -/
def stripL (s : List Char) : List Char :=
  ((s.dropWhile pySpace).reverse.dropWhile pySpace).reverse

/-- `str.lower()` (ASCII). -/
def lowerL (s : List Char) : List Char := s.map Char.toLower

/-- Character class `[\d,]` of the number-token regex in `clean_numeric_value`. -/
def isNumChar (c : Char) : Bool := c.isDigit || c = ','

/-- The sentinel string `"NDA"`. -/
def ndaL : List Char := "NDA".toList

/-- Leading-punctuation removal `re.sub(r'^[:\-\s]+', '', value_str)`
(tasks.py line 118): drop the maximal leading run of `:`, `-` and whitespace. -/
def dropLeadPunct (s : List Char) : List Char :=
  s.dropWhile (fun c => c = ':' || c = '-' || pySpace c)

/-- Match of `([\\d,]+[.,]?\\d*)` anchored at the start of `s`
(the capture of `re.search` in tasks.py line 121, at one candidate position):
a maximal nonempty run of digits/commas, then optionally a dot followed by a
maximal run of digits.  (The `[.,]?` branch can only consume `.` here, because
a comma would already belong to the `[\\d,]+` run.) -/
def numTokenAt (s : List Char) : Option (List Char) :=
  if (s.takeWhile isNumChar).isEmpty then none
  else if (s.dropWhile isNumChar).head? = some '.' then
    some (s.takeWhile isNumChar ++ '.' :: (s.dropWhile isNumChar).tail.takeWhile Char.isDigit)
  else some (s.takeWhile isNumChar)

/-- Leftmost match of `([\d,]+[.,]?\d*)` in `s` (`re.search`, tasks.py line 121). -/
def findNumToken : List Char → Option (List Char)
  | [] => none
  | c :: cs =>
    match numTokenAt (c :: cs) with
    | some t => some t
    | none => findNumToken cs

/-- Does `t` end with the pattern `(\\d+),(\\d+)$`
(at least one digit before a comma, then one or more digits running to the end)? -/
def endsCommaDec (t : List Char) : Bool :=
  !((t.reverse).takeWhile Char.isDigit).isEmpty
    && ((t.reverse).dropWhile Char.isDigit).head? = some ','
    && ((((t.reverse).dropWhile Char.isDigit).tail.head?).map Char.isDigit).getD false

/-- `re.sub(r'(\d+),(\d+)$', r'\1.\2', number)` (tasks.py line 125): when the
string ends in `digits,digits`, replace that final comma by a dot (the
replacement `\1.\2` keeps all digits, so the sub amounts to exactly this). -/
def fixDecimalComma (t : List Char) : List Char :=
  if endsCommaDec t then
    (((t.reverse).takeWhile Char.isDigit) ++ '.' :: ((t.reverse).dropWhile Char.isDigit).tail).reverse
  else t

/-- The guard of `clean_numeric_value` (tasks.py line 113):
empty value or a recognised no-data token, compared after `str.lower()`. -/
def isNoDataTok (value : List Char) : Bool :=
  value.isEmpty || lowerL value = "nda".toList || lowerL value = "n/a".toList
    || lowerL value = "not available".toList

/-- `clean_numeric_value` (tasks.py lines 111-128).  Returns `"NDA"` for empty
input or the no-data tokens, otherwise strips the value, removes leading
punctuation, extracts the first number-like substring and canonicalises a
trailing comma decimal separator; `"NDA"` if no number is found. -/
def clean_numeric_value (value : List Char) : List Char :=
  if isNoDataTok value then ndaL
  else
    match findNumToken (dropLeadPunct (stripL value)) with
    | some tok => fixDecimalComma tok
    | none => ndaL

/-- Characters a number token can contain: digits, commas and the dot. -/
def numDotChar (c : Char) : Bool := isNumChar c || c = '.'

/-- Shape of the tail of a number token: empty, or a dot followed by digits only. -/
def goodTokTail (t : List Char) : Bool :=
  t.isEmpty || (t.head? = some '.' && t.tail.all Char.isDigit)

/-- Shape of a number token produced by `numTokenAt`: a nonempty maximal run of
digits/commas, then a `goodTokTail`. -/
def goodTok (t : List Char) : Bool :=
  !(t.takeWhile isNumChar).isEmpty && goodTokTail (t.dropWhile isNumChar)


/-! ### Generic pattern scanning -/

/-- Leftmost-match search (`re.search` / `re.findall(...)[0]`): try the
anchored matcher at each position, scanning left to right. -/
def scanFor {α : Type} (m : List Char → Option α) : List Char → Option α
  | [] => m []
  | c :: cs =>
    match m (c :: cs) with
    | some v => some v
    | none => scanFor m cs

/-- Case-insensitive literal: consume the characters of `lit` (compared after
`toLower`, as under `re.IGNORECASE` for ASCII) and return the rest. -/
def takeLitCI : List Char → List Char → Option (List Char)
  | [], s => some s
  | _ :: _, [] => none
  | c :: cs, d :: ds => if d.toLower = c.toLower then takeLitCI cs ds else none

/-- Case-insensitive literal given as a string. -/
def litW (w : String) (s : List Char) : Option (List Char) := takeLitCI w.toList s

/-- `\s*`. -/
def wsStar (s : List Char) : List Char := s.dropWhile pySpace

/-- `\s+`: at least one whitespace character, then the maximal run. -/
def wsPlus : List Char → Option (List Char)
  | [] => none
  | c :: cs => if pySpace c then some (cs.dropWhile pySpace) else none

/-- `[:\s]*`. -/
def colonWsStar (s : List Char) : List Char := s.dropWhile (fun c => c = ':' || pySpace c)

/-- Greedy optional single character `X?` for a character class. -/
def optChar (p : Char → Bool) : List Char → List Char
  | [] => []
  | c :: cs => if p c then cs else c :: cs

/-- Require one character of a class. -/
def oneChar (p : Char → Bool) : List Char → Option (List Char)
  | [] => none
  | c :: cs => if p c then some cs else none

/-- Lazy `.*?m` (and, for pure existence, also greedy `.*m`) under the default
flags, where `.` does not match a newline: try `m` at each position, moving
right, and stop at a newline.  With backtracking this is exactly where a
`.*`-connected regex can still match. -/
def dotStarThen {α : Type} (m : List Char → Option α) : List Char → Option α
  | [] => m []
  | c :: cs =>
    match m (c :: cs) with
    | some v => some v
    | none => if c = '\n' then none else dotStarThen m cs

/-! ### Static hazard (`extract_static_hazard`, tasks.py lines 281-343) -/

/-- The 13 "static hazard present" patterns (tasks.py lines 284-298), in source
order, each as an anchored matcher. -/
def static_patterns : List (List Char → Option (List Char)) :=
  [ fun s => do let s ← litW "static" s; let s ← wsPlus s; litW "discharge" s,
    fun s => do let s ← litW "electrostatic" s; let s ← wsPlus s; litW "discharge" s,
    fun s => do let s ← litW "static" s; let s ← wsPlus s; litW "electricity" s,
    fun s => do let s ← litW "electrostatic" s; let s ← wsPlus s; litW "charge" s,
    fun s => do let s ← litW "static" s; let s ← wsPlus s; litW "charge" s,
    fun s => do
      let s ← litW "precautionary" s; let s ← wsPlus s; let s ← litW "measures" s
      let s ← wsPlus s; let s ← litW "against" s; let s ← wsPlus s
      let s ← litW "static" s; let s ← wsPlus s; litW "discharge" s,
    fun s => do
      let s ← litW "measures" s; let s ← wsPlus s; let s ← litW "to" s
      let s ← wsPlus s; let s ← litW "prevent" s
      dotStarThen (litW "static") s,
    fun s => do
      let s ← litW "ground" s
      dotStarThen (fun s => do let s ← litW "bond" s; dotStarThen (litW "container") s) s,
    fun s => do let s ← litW "grounding" s; dotStarThen (litW "bonding") s,
    fun s => do let s ← litW "anti" s; litW "static" (optChar (fun c => c = '-' || pySpace c) s),
    fun s => do let s ← litW "static" s; let s ← wsPlus s; litW "sensitive" s,
    fun s => do let s ← litW "electrostatic" s; let s ← wsPlus s; litW "ignition" s,
    fun s => do let s ← litW "static" s; let s ← wsPlus s; litW "buildup" s ]

/-- The 6 "no static hazard" patterns (tasks.py lines 301-308), in source order. -/
def no_static_patterns : List (List Char → Option (List Char)) :=
  [ fun s => do
      let s ← litW "no" s; let s ← wsPlus s; let s ← litW "static" s
      let s ← wsPlus s; litW "hazard" s,
    fun s => do
      let s ← litW "static" s; let s ← wsPlus s; let s ← litW "hazard" s
      litW "no" (wsStar (optChar (fun c => c = ':') (wsStar s))),
    fun s => do
      let s ← litW "not" s; let s ← wsPlus s; let s ← litW "static" s
      let s ← wsPlus s; litW "sensitive" s,
    fun s => do
      let s ← litW "no" s; let s ← wsPlus s; let s ← litW "electrostatic" s
      let s ← wsPlus s; litW "hazard" s,
    fun s => do
      let s ← litW "static" s; let s ← wsPlus s; let s ← litW "discharge" s
      let s ← litW "not" (wsStar (optChar (fun c => c = ':') (wsStar s)))
      let s ← wsPlus s; litW "applicable" s,
    fun s => do
      let s ← litW "static" s; let s ← wsPlus s; let s ← litW "discharge" s
      let s ← litW "n" (wsStar (optChar (fun c => c = ':') (wsStar s)))
      litW "a" (optChar (fun c => c = '/') s) ]

/-- The 4 handling/storage section patterns (tasks.py lines 323-328), in source
order.  In the first one `.*?` cannot cross a newline (no `re.DOTALL` here). -/
def handling_sections : List (List Char → Option (List Char)) :=
  [ fun s => do
      let s ← litW "SECTION" s
      let s ← litW "7" (wsStar s)
      dotStarThen (fun u => (litW "handling" u).orElse (fun _ => litW "storage" u)) s,
    fun s => do
      let s ← litW "handling" s; let s ← wsPlus s; let s ← litW "and" s
      let s ← wsPlus s; litW "storage" s,
    fun s => do
      let s ← litW "precautions" s; let s ← wsPlus s; let s ← litW "for" s
      let s ← wsPlus s; let s ← litW "safe" s; let s ← wsPlus s; litW "handling" s,
    fun s => do let s ← litW "storage" s; let s ← wsPlus s; litW "conditions" s ]

/-- `re.search(pattern, text, re.IGNORECASE)` viewed as a Boolean test. -/
def reSearch (m : List Char → Option (List Char)) (text : List Char) : Bool :=
  (scanFor m text).isSome

/-- Does any pattern of the list match somewhere in the text?  (The source
loops over the list and returns on the first hit; for a Boolean result that
is the same as `any`.) -/
def anyPattern (pats : List (List Char → Option (List Char))) (text : List Char) : Bool :=
  pats.any (fun p => reSearch p text)

/-- `extract_static_hazard` (tasks.py lines 281-343): explicit "no" patterns
first, then "yes" patterns, then the handling/storage-section default "No",
otherwise `"NDA"`. -/
def extract_static_hazard (text : List Char) : List Char :=
  if anyPattern no_static_patterns text then "No".toList
  else if anyPattern static_patterns text then "Yes".toList
  else if anyPattern handling_sections text then "No".toList
  else "NDA".toList


/-! ### CAS number (`extract_cas_number`, tasks.py lines 257-279) -/

/-- Anchored match of the capture `(\d{2,7}-\d{2}-\d)` at the start of `s`:
the leading digit run (the regex can only use the whole run, since the next
pattern character is a hyphen) of length 2..7, a hyphen, exactly two digits, a
hyphen and one digit.  Returns the capture and the rest of the input. -/
def casShapeAt (s : List Char) : Option (List Char × List Char) :=
  if 2 ≤ (s.takeWhile Char.isDigit).length ∧ (s.takeWhile Char.isDigit).length ≤ 7 then
    match s.dropWhile Char.isDigit with
    | '-' :: a :: b :: '-' :: c :: rest =>
      if a.isDigit && b.isDigit && c.isDigit then
        some (s.takeWhile Char.isDigit ++ '-' :: a :: b :: '-' :: [c], rest)
      else none
    | _ => none
  else none

/-- Does `v` consist exactly of a CAS-shaped token `\d{2,7}-\d{2}-\d`? -/
def isCasShape (v : List Char) : Bool :=
  match casShapeAt v with
  | some (_, rest) => rest.isEmpty
  | none => false

/-- Separator `\s*[:\-]?\s*[\[\(]?\s*` between a CAS label and the number. -/
def casSep (s : List Char) : List Char :=
  wsStar (optChar (fun c => c = '[' || c = '(')
    (wsStar (optChar (fun c => c = ':' || c = '-') (wsStar s))))

/-- `CAS-No\.?\s*[:\-]?\s*[\[\(]?\s*(\d{2,7}-\d{2}-\d)\s*[\]\)]?` (capture only;
the optional trailing bracket cannot fail). -/
def cas_pattern1 (s : List Char) : Option (List Char) :=
  match litW "CAS-No" s with
  | none => none
  | some s1 =>
    match casShapeAt (casSep (optChar (fun c => c = '.') s1)) with
    | none => none
    | some (cap, _) => some cap

/-- `CAS\s+No\.?\s*[:\-]?\s*[\[\(]?\s*(\d{2,7}-\d{2}-\d)\s*[\]\)]?`. -/
def cas_pattern2 (s : List Char) : Option (List Char) :=
  match litW "CAS" s with
  | none => none
  | some s1 =>
    match wsPlus s1 with
    | none => none
    | some s2 =>
      match litW "No" s2 with
      | none => none
      | some s3 =>
        match casShapeAt (casSep (optChar (fun c => c = '.') s3)) with
        | none => none
        | some (cap, _) => some cap

/-- `CAS\s+number\s*[:\-]?\s*[\[\(]?\s*(\d{2,7}-\d{2}-\d)\s*[\]\)]?`. -/
def cas_pattern3 (s : List Char) : Option (List Char) :=
  match litW "CAS" s with
  | none => none
  | some s1 =>
    match wsPlus s1 with
    | none => none
    | some s2 =>
      match litW "number" s2 with
      | none => none
      | some s3 =>
        match casShapeAt (casSep s3) with
        | none => none
        | some (cap, _) => some cap

/-- `CAS#?\s*[:\-]?\s*[\[\(]?\s*(\d{2,7}-\d{2}-\d)\s*[\]\)]?`. -/
def cas_pattern4 (s : List Char) : Option (List Char) :=
  match litW "CAS" s with
  | none => none
  | some s1 =>
    match casShapeAt (casSep (optChar (fun c => c = '#') s1)) with
    | none => none
    | some (cap, _) => some cap

/-- `【CAS】\s*[:\-]?\s*[\[\(]?\s*(\d{2,7}-\d{2}-\d)\s*[\]\)]?`. -/
def cas_pattern5 (s : List Char) : Option (List Char) :=
  match litW "【CAS】" s with
  | none => none
  | some s1 =>
    match casShapeAt (casSep s1) with
    | none => none
    | some (cap, _) => some cap

/-- The optional group `(?:\s*-?\s*(?:No|NUMBER|#))` of pattern 6. -/
def casNoLabel (s : List Char) : Option (List Char) :=
  (litW "No" (wsStar (optChar (fun c => c = '-') (wsStar s)))).orElse fun _ =>
    (litW "NUMBER" (wsStar (optChar (fun c => c = '-') (wsStar s)))).orElse fun _ =>
      oneChar (fun c => c = '#') (wsStar (optChar (fun c => c = '-') (wsStar s)))

/-- `(?:CAS|cas)(?:\s*-?\s*(?:No|NUMBER|#))?\s*[:\-]?\s*[\[\(]?\s*(...)\s*[\]\)]?`
(the optional label group is taken greedily; skipping a successful label can
never rescue the rest of the pattern, since the separator admits no letters
or `#` before the digits). -/
def cas_pattern6 (s : List Char) : Option (List Char) :=
  match litW "cas" s with
  | none => none
  | some s1 =>
    match casShapeAt (casSep ((casNoLabel s1).getD s1)) with
    | none => none
    | some (cap, _) => some cap

/-- Word characters of `\b` (ASCII `\w`). -/
def isWordChar (c : Char) : Bool := c.isAlphanum || c = '_'

/-- `(\d{2,7}-\d{2}-\d)\b` anchored: the CAS shape followed by a non-word
character or the end of input. -/
def casBareAt (s : List Char) : Option (List Char) :=
  match casShapeAt s with
  | none => none
  | some (cap, []) => some cap
  | some (cap, c :: _) => if isWordChar c then none else some cap

/-- Is the position a valid start for a leading `\b` before a digit: start of
text or preceded by a non-word character? -/
def boundOk : Option Char → Bool
  | none => true
  | some p => !isWordChar p

/-- Scan for `\b(\d{2,7}-\d{2}-\d)\b`, tracking the previous character for the
leading word boundary. -/
def cas_pattern7_go : Option Char → List Char → Option (List Char)
  | _, [] => none
  | prev, c :: cs =>
    if boundOk prev then
      match casBareAt (c :: cs) with
      | some cap => some cap
      | none => cas_pattern7_go (some c) cs
    else cas_pattern7_go (some c) cs

/-- `\b(\d{2,7}-\d{2}-\d)\b` searched over the whole text. -/
def cas_pattern7 (text : List Char) : Option (List Char) := cas_pattern7_go none text

/-- Try a list of searches in order and return the first hit. -/
def firstSome (fs : List (List Char → Option (List Char))) (text : List Char) :
    Option (List Char) :=
  match fs with
  | [] => none
  | f :: rest =>
    match f text with
    | some v => some v
    | none => firstSome rest text

/-- The 7 CAS patterns of tasks.py lines 259-269, in source order, each as a
whole-text search. -/
def cas_patterns : List (List Char → Option (List Char)) :=
  [scanFor cas_pattern1, scanFor cas_pattern2, scanFor cas_pattern3, scanFor cas_pattern4,
   scanFor cas_pattern5, scanFor cas_pattern6, cas_pattern7]

/-- `extract_cas_number` (tasks.py lines 257-279): first pattern with a match
wins; the captured value is stripped (a no-op on the captured shape) and is
never numerically cleaned; `"NDA"` when nothing matches. -/
def extract_cas_number (text : List Char) : List Char :=
  match firstSome cas_patterns text with
  | some cap => stripL cap
  | none => ndaL


/-! ### Flammable limits (`extract_flammable_limits`, tasks.py lines 130-234) -/

/-- Anchored `\d+(?:\.\d+)?`: a digit run, optionally a dot plus a digit run
(the optional group needs at least one digit after the dot). -/
def scanNum (s : List Char) : Option (List Char × List Char) :=
  if (s.takeWhile Char.isDigit).isEmpty then none
  else
    match s.dropWhile Char.isDigit with
    | '.' :: r2 =>
      if (r2.takeWhile Char.isDigit).isEmpty then
        some (s.takeWhile Char.isDigit, s.dropWhile Char.isDigit)
      else
        some (s.takeWhile Char.isDigit ++ '.' :: r2.takeWhile Char.isDigit,
          r2.dropWhile Char.isDigit)
    | rest => some (s.takeWhile Char.isDigit, rest)

/-- The dash class `[-–—]`. -/
def isDashChar (c : Char) : Bool := c = '-' || c = '–' || c = '—'

/-- `(num)\s*%`: number capture followed by a percent sign. -/
def numPct (s : List Char) : Option (List Char × List Char) :=
  match scanNum s with
  | none => none
  | some (cap, r) =>
    match oneChar (fun c => c = '%') (wsStar r) with
    | none => none
    | some r2 => some (cap, r2)

/-- `LBL[:\s]*(num)\s*%` for a one-word label. -/
def labelNumPct (lbl : String) (s : List Char) : Option (List Char × List Char) :=
  match litW lbl s with
  | none => none
  | some s1 => numPct (colonWsStar s1)

/-- A sequence of literal words joined by `\s+`. -/
def litWords : List String → List Char → Option (List Char)
  | [], s => some s
  | [w], s => litW w s
  | w :: ws, s =>
    match litW w s with
    | none => none
    | some s1 =>
      match wsPlus s1 with
      | none => none
      | some s2 => litWords ws s2

/-- `W1\s+W2...\s+Wn[:\s]*(num)\s*%`. -/
def wordsNumPct (ws : List String) (s : List Char) : Option (List Char × List Char) :=
  match litWords ws s with
  | none => none
  | some s1 => numPct (colonWsStar s1)

/-- Paired pattern `L1...(num)%.*?L2...(num)%` where the gap is scanned under
`re.DOTALL` (tasks.py line 166), so it may cross newlines; the lazy `.*?`
takes the first position where the second half matches. -/
def pairGapScan (firstHalf secondHalf : List Char → Option (List Char × List Char))
    (s : List Char) : Option (List (List Char)) :=
  match firstHalf s with
  | none => none
  | some (a, r) =>
    match scanFor secondHalf r with
    | none => none
    | some (b, _) => some [a, b]

/-- `[:\s]*(num)\s*%?\s*[-–—]\s*(num)\s*%`: the range tail of patterns 4-6 of
the source list. -/
def rangeTail (s : List Char) : Option (List Char × List Char) :=
  match scanNum (colonWsStar s) with
  | none => none
  | some (a, r) =>
    match oneChar isDashChar (wsStar (optChar (fun c => c = '%') (wsStar r))) with
    | none => none
    | some r2 =>
      match scanNum (wsStar r2) with
      | none => none
      | some (b, r3) =>
        match oneChar (fun c => c = '%') (wsStar r3) with
        | none => none
        | some _ => some (a, b)

/-- `[:\s]*(num)\s*[-–—]\s*(num)\s*%`: the range tail of pattern 10 (no
optional percent after the first number). -/
def rangeTail2 (s : List Char) : Option (List Char × List Char) :=
  match scanNum (colonWsStar s) with
  | none => none
  | some (a, r) =>
    match oneChar isDashChar (wsStar r) with
    | none => none
    | some r2 =>
      match scanNum (wsStar r2) with
      | none => none
      | some (b, r3) =>
        match oneChar (fun c => c = '%') (wsStar r3) with
        | none => none
        | some _ => some (a, b)

/-- `limits?` style label: literal words joined by `\s+`, plus an optional
(case-insensitive) trailing `s`. -/
def litWordsOptS (ws : List String) (s : List Char) : Option (List Char) :=
  (litWords ws s).map (optChar (fun c => c.toLower = 's'))

/-- Unit alternation `(?:vol\s*%|%\s*vol|%|volume\s*%)` of pattern 9, tried in
source order. -/
def volUnit (s : List Char) : Option (List Char) :=
  (match litW "vol" s with
   | none => none
   | some s1 => oneChar (fun c => c = '%') (wsStar s1)).orElse fun _ =>
    (match oneChar (fun c => c = '%') s with
     | none => none
     | some s1 => litW "vol" (wsStar s1)).orElse fun _ =>
      (oneChar (fun c => c = '%') s).orElse fun _ =>
        match litW "volume" s with
        | none => none
        | some s1 => oneChar (fun c => c = '%') (wsStar s1)

/-- `(num)\s*(vol-unit)` of pattern 9. -/
def numVolUnit (s : List Char) : Option (List Char × List Char) :=
  match scanNum s with
  | none => none
  | some (cap, r) =>
    match volUnit (wsStar r) with
    | none => none
    | some r2 => some (cap, r2)

/-- `(?:L1|L2)[:\s]*(num)\s*(vol-unit)` of pattern 9, alternatives in order. -/
def volHalf (l1 l2 : String) (s : List Char) : Option (List Char × List Char) :=
  (match litW l1 s with
   | none => none
   | some s1 => numVolUnit (colonWsStar s1)).orElse fun _ =>
    match litW l2 s with
    | none => none
    | some s1 => numVolUnit (colonWsStar s1)

/-- The 12 entries of `flammable_patterns` (tasks.py lines 138-162), in source
order, each anchored at a position and returning its capture groups. -/
def flammable_patterns : List (List Char → Option (List (List Char))) :=
  [ -- 1: LEL/UEL with percentages
    pairGapScan (labelNumPct "LEL") (labelNumPct "UEL"),
    pairGapScan (wordsNumPct ["Lower", "explosive", "limit"])
      (wordsNumPct ["Upper", "explosive", "limit"]),
    pairGapScan (labelNumPct "LFL") (labelNumPct "UFL"),
    -- 2: labelled range like "2.1 - 12.8%"
    fun s => (((rangeTail <$> litW "LEL" s).getD none).orElse fun _ =>
      ((rangeTail <$> litWords ["Lower", "explosive", "limit"] s).getD none).orElse fun _ =>
        ((rangeTail <$> litW "LFL" s).getD none).orElse fun _ =>
          (rangeTail <$> litWordsOptS ["Flammable", "limit"] s).getD none).map
      fun p => [p.1, p.2],
    fun s => ((rangeTail <$> litWordsOptS ["Explosive", "limit"] s).getD none).map
      fun p => [p.1, p.2],
    fun s => ((rangeTail <$> litWordsOptS ["Flammability", "limit"] s).getD none).map
      fun p => [p.1, p.2],
    -- 3: parenthesised formats
    fun s =>
      match oneChar (fun c => c = '(') s with
      | none => none
      | some s1 =>
        match scanNum (wsStar s1) with
        | none => none
        | some (a, r) =>
          match oneChar isDashChar (wsStar (optChar (fun c => c = '%') (wsStar r))) with
          | none => none
          | some r2 =>
            match scanNum (wsStar r2) with
            | none => none
            | some (b, r3) =>
              match oneChar (fun c => c = ')')
                  (wsStar (optChar (fun c => c = '%') (wsStar r3))) with
              | none => none
              | some _ => some [a, b],
    fun s =>
      match oneChar (fun c => c = '(') s with
      | none => none
      | some s1 =>
        match labelNumPct "LEL" (wsStar s1) with
        | none => none
        | some (a, r) =>
          match scanFor (fun u =>
            match labelNumPct "UEL" u with
            | none => none
            | some (b, r2) =>
              match oneChar (fun c => c = ')') (wsStar r2) with
              | none => none
              | some _ => some b) r with
          | none => none
          | some b => some [a, b],
    -- 4: table-like format with volume units
    pairGapScan (volHalf "LEL" "Lower") (volHalf "UEL" "Upper"),
    -- 5: labelled simple range
    fun s =>
      match ((litW "Flammable" s).orElse fun _ => litW "Explosive" s) with
      | none => none
      | some s1 =>
        match wsPlus s1 with
        | none => none
        | some s2 =>
          match ((litW "range" s2).orElse fun _ => litWordsOptS ["limit"] s2) with
          | none => none
          | some s3 => (rangeTail2 s3).map fun p => [p.1, p.2],
    -- 6: individual LEL / UEL
    fun s => (labelNumPct "LEL" s).map fun p => [p.1],
    fun s => (labelNumPct "UEL" s).map fun p => [p.1] ]

/-- The paired loop of tasks.py lines 165-173: only `flammable_patterns[:5]`
are attempted; a pattern counts only when its match has exactly two groups, and
the captures are stripped. -/
def flamPairedScan :
    List (List Char → Option (List (List Char))) → List Char →
      Option (List Char × List Char)
  | [], _ => none
  | p :: ps, text =>
    match scanFor p text with
    | some [a, b] => some (stripL a, stripL b)
    | some _ => flamPairedScan ps text
    | none => flamPairedScan ps text

/-- The individual LEL patterns (tasks.py lines 178-183), in source order. -/
def lel_patterns : List (List Char → Option (List Char × List Char)) :=
  [labelNumPct "LEL", wordsNumPct ["Lower", "explosive", "limit"], labelNumPct "LFL",
   wordsNumPct ["Lower", "flammable", "limit"]]

/-- The individual UEL patterns (tasks.py lines 193-198), in source order. -/
def uel_patterns : List (List Char → Option (List Char × List Char)) :=
  [labelNumPct "UEL", wordsNumPct ["Upper", "explosive", "limit"], labelNumPct "UFL",
   wordsNumPct ["Upper", "flammable", "limit"]]

/-- First individual pattern with a match anywhere in the text; the capture is
stripped. -/
def findIndiv : List (List Char → Option (List Char × List Char)) → List Char →
    Option (List Char)
  | [], _ => none
  | p :: ps, text =>
    match scanFor p text with
    | some (cap, _) => some (stripL cap)
    | none => findIndiv ps text

/-- `(?:not\s+applicable|n/?a)`. -/
def notApplicableAlt (s : List Char) : Option (List Char) :=
  (litWords ["not", "applicable"] s).orElse fun _ =>
    match litW "n" s with
    | none => none
    | some s1 => litW "a" (optChar (fun c => c = '/') s1)

/-- The 7 non-flammable patterns (tasks.py lines 216-224), in source order. -/
def non_flammable_patterns : List (List Char → Option (List Char)) :=
  [ litWords ["not", "flammable"],
    fun s =>
      match litW "non" s with
      | none => none
      | some s1 => litW "flammable" (optChar (fun c => c = '-' || pySpace c) s1),
    fun s =>
      match litWordsOptS ["Flammable", "limit"] s with
      | none => none
      | some s1 => notApplicableAlt (wsStar (optChar (fun c => c = ':') (wsStar s1))),
    fun s =>
      match litWordsOptS ["Explosive", "limit"] s with
      | none => none
      | some s1 => notApplicableAlt (wsStar (optChar (fun c => c = ':') (wsStar s1))),
    litWords ["does", "not", "burn"],
    litWords ["will", "not", "burn"],
    fun s =>
      match litW "non" s with
      | none => none
      | some s1 => litW "combustible" (optChar (fun c => c = '-' || pySpace c) s1) ]

/-- `extract_flammable_limits` (tasks.py lines 130-234): try the first five
paired patterns; else try the individual LEL and UEL patterns; format whatever
was found; if nothing, scan for a non-flammability statement; else `"NDA"`. -/
def extract_flammable_limits (text : List Char) : List Char :=
  match flamPairedScan (flammable_patterns.take 5) text with
  | some (l, u) => "LEL: ".toList ++ l ++ "%, UEL: ".toList ++ u ++ "%".toList
  | none =>
    match findIndiv lel_patterns text, findIndiv uel_patterns text with
    | some l, some u => "LEL: ".toList ++ l ++ "%, UEL: ".toList ++ u ++ "%".toList
    | some l, none => "LEL: ".toList ++ l ++ "%".toList
    | none, some u => "UEL: ".toList ++ u ++ "%".toList
    | none, none =>
      if anyPattern non_flammable_patterns text then "Non-flammable".toList
      else ndaL


/-! ### Vapour pressure (tasks.py lines 357-385) -/

/-- Python exceptions that the modelled fragments can raise. -/
inductive PyErr where
  | valueError (arg : List Char)
  | nameError (name : List Char)
deriving DecidableEq, Repr

/-- Decidable equality for `Except` results (not provided by core). -/
instance {ε α : Type} [DecidableEq ε] [DecidableEq α] : DecidableEq (Except ε α) := fun
  | .ok a, .ok b =>
    if h : a = b then .isTrue (by rw [h]) else .isFalse (by intro hq; cases hq; exact h rfl)
  | .ok _, .error _ => .isFalse (by intro hq; cases hq)
  | .error _, .ok _ => .isFalse (by intro hq; cases hq)
  | .error e, .error f =>
    if h : e = f then .isTrue (by rw [h]) else .isFalse (by intro hq; cases hq; exact h rfl)

/-- Decimal digit character. -/
def digitChar (n : Nat) : Char := Char.ofNat (48 + n)

/-- Decimal rendering with explicit fuel (structural recursion so that the
kernel can evaluate it; the fuel `n + 1` always suffices). -/
def natDecAux : Nat → Nat → List Char
  | 0, _ => []
  | fuel + 1, n =>
    if n < 10 then [digitChar n]
    else natDecAux fuel (n / 10) ++ [digitChar (n % 10)]

/-- Decimal rendering of a natural number (Python `str(n)` for `n ≥ 0`). -/
def natDec (n : Nat) : List Char := natDecAux (n + 1) n

/-- Numeric value of a digit string (most significant first). -/
def decValN (s : List Char) : Nat := s.foldl (fun a c => 10 * a + (c.toNat - 48)) 0

/-- Anchored `([\d,]+[.,]?\d*)` returning capture and rest (the token of the
vapour-pressure patterns; same shape as `numTokenAt`). -/
def numTokAt (s : List Char) : Option (List Char × List Char) :=
  if (s.takeWhile isNumChar).isEmpty then none
  else
    match s.dropWhile isNumChar with
    | '.' :: r2 =>
      some (s.takeWhile isNumChar ++ '.' :: r2.takeWhile Char.isDigit, r2.dropWhile Char.isDigit)
    | rest => some (s.takeWhile isNumChar, rest)

/-- Exact nonnegative decimal value `mant / 10 ^ fracDigits`.  Python floats
are modelled by exact decimals: every numeric literal of the source is a
decimal, the operations used (multiplication by 760 and by 0.00750062) are
exact on decimals, and no value in this development sits at a formatting tie,
so the model agrees with IEEE doubles on everything stated below. -/
structure DecFloat where
  mant : Nat
  fracDigits : Nat
deriving DecidableEq, Repr

/-- Python `float(s)` on the strings produced by `clean_numeric_value`:
digits with at most one dot parse to an exact decimal; anything else (e.g. a
leftover comma) raises `ValueError`. -/
def pyFloat? (s : List Char) : Option DecFloat :=
  match s.dropWhile Char.isDigit with
  | [] => if (s.takeWhile Char.isDigit).isEmpty then none else some ⟨decValN s, 0⟩
  | '.' :: rest =>
    if (rest.dropWhile Char.isDigit).isEmpty then
      if (s.takeWhile Char.isDigit).isEmpty && rest.isEmpty then none
      else some ⟨decValN (s.takeWhile Char.isDigit) * 10 ^ rest.length + decValN rest,
        rest.length⟩
    else none
  | _ => none

/-- Multiply by a natural number (`value * 760`). -/
def DecFloat.mulNat (d : DecFloat) (k : Nat) : DecFloat := ⟨d.mant * k, d.fracDigits⟩

/-- Multiply by another decimal (`value * 0.00750062`). -/
def DecFloat.mulDec (d k : DecFloat) : DecFloat :=
  ⟨d.mant * k.mant, d.fracDigits + k.fracDigits⟩

/-- Round `x / p` to the nearest natural number, ties to even (the IEEE
default used by Python float formatting). -/
def rndHalfEven (x p : Nat) : Nat :=
  if 2 * (x % p) < p then x / p
  else if p < 2 * (x % p) then x / p + 1
  else if (x / p) % 2 = 0 then x / p else x / p + 1

/-- `f"{x:.1f}"` for a nonnegative value: round `x*10` to the nearest integer
and print it with one decimal digit. -/
def fmt1 (d : DecFloat) : List Char :=
  natDec (rndHalfEven (d.mant * 10) (10 ^ d.fracDigits) / 10) ++ '.' ::
    [digitChar (rndHalfEven (d.mant * 10) (10 ^ d.fracDigits) % 10)]

/-- The label `Vapou?r\s+pressure\s*:?\s*`. -/
def vapourPressureLbl (s : List Char) : Option (List Char) :=
  match litW "Vapo" s with
  | none => none
  | some s1 =>
    match litW "r" (optChar (fun c => c.toLower = 'u') s1) with
    | none => none
    | some s2 =>
      match wsPlus s2 with
      | none => none
      | some s3 =>
        match litW "pressure" s3 with
        | none => none
        | some s4 => some (wsStar (optChar (fun c => c = ':') (wsStar s4)))

/-- `(tok)\s*UNIT` after a label. -/
def vpNumUnit (unit : String) (s : List Char) : Option (List Char) :=
  match numTokAt s with
  | none => none
  | some (cap, r) =>
    match litW unit (wsStar r) with
    | none => none
    | some _ => some cap

/-- `Vapou?r\s+pressure\s*:?\s*([\d,]+[.,]?\d*)\s*atm`. -/
def vp_pattern1 (s : List Char) : Option (List Char) :=
  match vapourPressureLbl s with
  | none => none
  | some s1 => vpNumUnit "atm" s1

/-- `Vapou?r\s+pressure\s*:?\s*([\d,]+[.,]?\d*)\s*mmHg`. -/
def vp_pattern2 (s : List Char) : Option (List Char) :=
  match vapourPressureLbl s with
  | none => none
  | some s1 => vpNumUnit "mmHg" s1

/-- `Vapou?r\s+pressure\s*:?\s*([\d,]+[.,]?\d*)\s*Pa`. -/
def vp_pattern3 (s : List Char) : Option (List Char) :=
  match vapourPressureLbl s with
  | none => none
  | some s1 => vpNumUnit "Pa" s1

/-- `Pressure\s*:?\s*([\d,]+[.,]?\d*)\s*(?:atm|mmHg|Pa)`. -/
def vp_pattern4 (s : List Char) : Option (List Char) :=
  match litW "Pressure" s with
  | none => none
  | some s1 =>
    match numTokAt (wsStar (optChar (fun c => c = ':') (wsStar s1))) with
    | none => none
    | some (cap, r) =>
      match ((litW "atm" (wsStar r)).orElse fun _ =>
          (litW "mmHg" (wsStar r)).orElse fun _ => litW "Pa" (wsStar r)) with
      | none => none
      | some _ => some cap

/-- Which conversion the source applies to a matched pattern.  The source
decides with substring tests on the PATTERN STRING (`if "atm" in pattern ...
elif "Pa" in pattern`, tasks.py lines 374-379); the generic fourth pattern
contains the substring `atm` inside `(?:atm|mmHg|Pa)`, so its matches are
always multiplied by 760, whatever unit actually occurred in the text. -/
inductive VpConv where
  | timesAtm
  | asIs
  | timesPa
deriving DecidableEq, Repr

/-- The vapour-pressure patterns in source order with the conversion selected
by the source's substring test on each pattern string. -/
def vp_patterns : List ((List Char → Option (List Char)) × VpConv) :=
  [(vp_pattern1, .timesAtm), (vp_pattern2, .asIs), (vp_pattern3, .timesPa),
   (vp_pattern4, .timesAtm)]

/-- Unit conversion on the cleaned value: atm→mmHg is ×760, Pa→mmHg is
×0.00750062, both formatted `:.1f`; mmHg values are kept verbatim.
`float()` on a value that still contains a comma raises `ValueError`. -/
def applyVpConv : VpConv → List Char → Except PyErr (List Char)
  | .asIs, v => .ok v
  | .timesAtm, v =>
    match pyFloat? v with
    | none => .error (.valueError v)
    | some q => .ok (fmt1 (q.mulNat 760))
  | .timesPa, v =>
    match pyFloat? v with
    | none => .error (.valueError v)
    | some q => .ok (fmt1 (q.mulDec ⟨750062, 8⟩))

/-- The vapour-pressure loop (tasks.py lines 369-380): first pattern with a
match whose cleaned value is not the sentinel wins and the loop breaks; a
sentinel value lets the loop continue. -/
def vpLoop : List ((List Char → Option (List Char)) × VpConv) → List Char →
    Except PyErr (List Char)
  | [], _ => .ok ndaL
  | (p, conv) :: ps, text =>
    match scanFor p text with
    | none => vpLoop ps text
    | some cap =>
      if clean_numeric_value cap = ndaL then vpLoop ps text
      else applyVpConv conv (clean_numeric_value cap)

/-- The vapour-pressure field of `parse_sds_data`. -/
def vapour_pressure_of (text : List Char) : Except PyErr (List Char) :=
  vpLoop vp_patterns text

/-- Anchored `(?:at|@)\s*(\d+)\s*°?C` (tasks.py line 383). -/
def atTempAt (s : List Char) : Option (List Char) :=
  match ((litW "at" s).orElse fun _ => oneChar (fun c => c = '@') s) with
  | none => none
  | some s1 =>
    if ((wsStar s1).takeWhile Char.isDigit).isEmpty then none
    else
      match litW "C" (optChar (fun c => c = '°')
          (wsStar ((wsStar s1).dropWhile Char.isDigit))) with
      | none => none
      | some _ => some ((wsStar s1).takeWhile Char.isDigit)

/-- The vapour-pressure temperature: first `at/@ N°C` match anywhere in the
text, defaulting to `"21"` (tasks.py lines 359, 383-385). -/
def vapour_temp_of (text : List Char) : List Char :=
  match scanFor atTempAt text with
  | some d => d
  | none => "21".toList


/-! ### The remaining fields of `parse_sds_data` (tasks.py lines 236-467) -/

/-- `find_between` (tasks.py lines 244-252) for a one-group pattern: leftmost
capture, stripped, then numerically cleaned when it contains a digit;
`"NDA"` when nothing matches. -/
def findBetween1 (m : List Char → Option (List Char)) (text : List Char) : List Char :=
  match scanFor m text with
  | some cap =>
    if (stripL cap).any Char.isDigit then clean_numeric_value (stripL cap) else stripL cap
  | none => ndaL

/-- The quote character of a Python `str` repr. -/
def pyQuote : Char := Char.ofNat 39

/-- Python `str(t)` of a two-string tuple `t` (what `find_between` receives
from `re.findall` when the pattern has two groups). -/
def pyPairStr (a b : List Char) : List Char :=
  '(' :: pyQuote :: (a ++ pyQuote :: ',' :: ' ' :: pyQuote :: (b ++ [pyQuote, ')']))

/-- `find_between` for a two-group pattern: `matches[0]` is a tuple, so the
source stringifies it before stripping/cleaning. -/
def findBetween2 (m : List Char → Option (List Char × List Char)) (text : List Char) :
    List Char :=
  match scanFor m text with
  | some (a, b) =>
    if (stripL (pyPairStr a b)).any Char.isDigit then
      clean_numeric_value (stripL (pyPairStr a b))
    else stripL (pyPairStr a b)
  | none => ndaL

/-- `\s*:?\s*` after a label. -/
def colonSep (s : List Char) : List Char := wsStar (optChar (fun c => c = ':') (wsStar s))

/-- `([^\n\r.]+)` greedy (physical-state capture). -/
def lineCapNoDot (s : List Char) : Option (List Char) :=
  if (s.takeWhile (fun c => !(c = '\n' || c = '\r' || c = '.'))).isEmpty then none
  else some (s.takeWhile (fun c => !(c = '\n' || c = '\r' || c = '.')))

/-- `([^\n\r]+)` greedy (rest-of-line capture). -/
def lineCap (s : List Char) : Option (List Char) :=
  if (s.takeWhile (fun c => !(c = '\n' || c = '\r'))).isEmpty then none
  else some (s.takeWhile (fun c => !(c = '\n' || c = '\r')))

/-- `Physical\s+state\s*:?\s*([^\n\r.]+)`. -/
def physical_state_pat (s : List Char) : Option (List Char) :=
  match litWords ["Physical", "state"] s with
  | none => none
  | some s1 => lineCapNoDot (colonSep s1)

/-- `State\s*:?\s*([^\n\r.]+)` (the fallback). -/
def state_pat (s : List Char) : Option (List Char) :=
  match litW "State" s with
  | none => none
  | some s1 => lineCapNoDot (colonSep s1)

/-- `([\d\-,]+[.,]?\d*)`: the point-value capture (also admits hyphens). -/
def numDashTokAt (s : List Char) : Option (List Char) :=
  if (s.takeWhile (fun c => c.isDigit || c = '-' || c = ',')).isEmpty then none
  else
    match s.dropWhile (fun c => c.isDigit || c = '-' || c = ',') with
    | '.' :: r2 =>
      some (s.takeWhile (fun c => c.isDigit || c = '-' || c = ',') ++
        '.' :: r2.takeWhile Char.isDigit)
    | _ => some (s.takeWhile (fun c => c.isDigit || c = '-' || c = ','))

/-- `Flash\s+point\s*:?\s*([\d\-,]+[.,]?\d*)` and the melting/boiling variants. -/
def point_pat (lbl : List String) (s : List Char) : Option (List Char) :=
  match litWords lbl s with
  | none => none
  | some s1 => numDashTokAt (colonSep s1)

/-- Case-insensitive literal returning the consumed original characters. -/
def takeLitCIcap : List Char → List Char → Option (List Char × List Char)
  | [], s => some ([], s)
  | _ :: _, [] => none
  | c :: cs, d :: ds =>
    if d.toLower = c.toLower then
      match takeLitCIcap cs ds with
      | none => none
      | some (consumed, r) => some (d :: consumed, r)
    else none

/-- Capturing variant of `litW`. -/
def litWcap (w : String) (s : List Char) : Option (List Char × List Char) :=
  takeLitCIcap w.toList s

/-- `([0-9]+[,.]?[0-9]*)`: the density-value capture of the first density
pattern (digits, then optionally one comma or dot plus digits). -/
def numTok2At (s : List Char) : Option (List Char × List Char) :=
  if (s.takeWhile Char.isDigit).isEmpty then none
  else
    match s.dropWhile Char.isDigit with
    | c :: r2 =>
      if c = ',' || c = '.' then
        some (s.takeWhile Char.isDigit ++ c :: r2.takeWhile Char.isDigit,
          r2.dropWhile Char.isDigit)
      else some (s.takeWhile Char.isDigit, c :: r2)
    | [] => some (s.takeWhile Char.isDigit, [])

/-- `(kg/m3|g/cm3|g/mL|g/L)` (captured, so the matched text is kept). -/
def densityUnit1 (s : List Char) : Option (List Char × List Char) :=
  (litWcap "kg/m3" s).orElse fun _ => (litWcap "g/cm3" s).orElse fun _ =>
    (litWcap "g/mL" s).orElse fun _ => litWcap "g/L" s

/-- `Density.*?([0-9]+[,.]?[0-9]*)\s*(kg/m3|g/cm3|g/mL|g/L)`: two capture
groups, lazy same-line gap. -/
def density_pat1 (s : List Char) : Option (List Char × List Char) :=
  match litW "Density" s with
  | none => none
  | some s1 =>
    dotStarThen (fun u =>
      match numTok2At u with
      | none => none
      | some (a, r) =>
        match densityUnit1 (wsStar r) with
        | none => none
        | some (unit, _) => some (a, unit)) s1

/-- `(?:g/cm³|g/cc|kg/m³)` (non-capturing). -/
def densityUnit2 (s : List Char) : Option (List Char) :=
  (litW "g/cm³" s).orElse fun _ => (litW "g/cc" s).orElse fun _ => litW "kg/m³" s

/-- `Density\s*:?\s*([\d,]+[.,]?\d*)\s*(?:g/cm³|g/cc|kg/m³)`. -/
def density_pat2 (s : List Char) : Option (List Char) :=
  match litW "Density" s with
  | none => none
  | some s1 =>
    match numTokAt (colonSep s1) with
    | none => none
    | some (cap, r) =>
      match densityUnit2 (wsStar r) with
      | none => none
      | some _ => some cap

/-- `Specific\s+gravity\s*:?\s*([\d,]+[.,]?\d*)`. -/
def density_pat3 (s : List Char) : Option (List Char) :=
  match litWords ["Specific", "gravity"] s with
  | none => none
  | some s1 => (numTokAt (colonSep s1)).map Prod.fst

/-- The density loop (tasks.py lines 393-402): first pattern whose
`find_between` result is not the sentinel wins. -/
def density_of (text : List Char) : List Char :=
  if findBetween2 density_pat1 text ≠ ndaL then findBetween2 density_pat1 text
  else if findBetween1 density_pat2 text ≠ ndaL then findBetween1 density_pat2 text
  else findBetween1 density_pat3 text

/-- `LD50.*?([0-9,]+[.,]?\d*)\s*mg/kg` (lazy same-line gap). -/
def ld50_pat1 (s : List Char) : Option (List Char) :=
  match litW "LD50" s with
  | none => none
  | some s1 =>
    dotStarThen (fun u =>
      match numTokAt u with
      | none => none
      | some (cap, r) =>
        match litW "mg/kg" (wsStar r) with
        | none => none
        | some _ => some cap) s1

/-- The optional `(?:oral|dermal)?` qualifier (greedy, and skipping a matched
qualifier can never rescue the rest, which must start with a digit). -/
def oralDermalOpt (s : List Char) : List Char :=
  match ((litW "oral" s).orElse fun _ => litW "dermal" s) with
  | some s1 => s1
  | none => s

/-- `LBL\s*:?\s*(?:oral|dermal)?\s*([\d,]+[.,]?\d*)\s*mg/kg`
(with no qualifier this is also the plain second LD50 pattern). -/
def ld50_lbl_pat (lbl : String) (qualifier : Bool) (s : List Char) : Option (List Char) :=
  match litW lbl s with
  | none => none
  | some s1 =>
    match numTokAt (if qualifier then wsStar (oralDermalOpt (colonSep s1)) else colonSep s1) with
    | none => none
    | some (cap, r) =>
      match litW "mg/kg" (wsStar r) with
      | none => none
      | some _ => some cap

/-- The four LD50 patterns (tasks.py lines 405-410), in source order. -/
def ld50_patterns : List (List Char → Option (List Char)) :=
  [ld50_pat1, ld50_lbl_pat "LD50" false, ld50_lbl_pat "LD50" true, ld50_lbl_pat "LD₅₀" true]

/-- A `find_between` loop that stops at the first non-sentinel result. -/
def findBetweenLoop : List (List Char → Option (List Char)) → List Char → List Char
  | [], _ => ndaL
  | p :: ps, text =>
    if findBetween1 p text ≠ ndaL then findBetween1 p text else findBetweenLoop ps text

/-- The LD50 loop (tasks.py lines 411-415): first non-sentinel result wins. -/
def ld50_of (text : List Char) : List Char := findBetweenLoop ld50_patterns text

/-- The six chemical-name patterns (tasks.py lines 417-424), in source order.
Under `re.IGNORECASE` the three case variants of `Product name` coincide; the
fourth has a mandatory colon and the fifth a `\s*:`; word gaps are literal
single spaces in these patterns. -/
def name_patterns : List (List Char → Option (List Char)) :=
  [ fun s => match litW "Product name" s with
      | none => none
      | some s1 => lineCap (colonWsStar s1),
    fun s => match litW "Product Name" s with
      | none => none
      | some s1 => lineCap (colonWsStar s1),
    fun s => match litW "PRODUCT NAME" s with
      | none => none
      | some s1 => lineCap (colonWsStar s1),
    fun s => match litW "Product Name:" s with
      | none => none
      | some s1 => lineCap (colonWsStar s1),
    fun s => match litW "Product name" s with
      | none => none
      | some s1 =>
        match oneChar (fun c => c = ':') (wsStar s1) with
        | none => none
        | some s2 => lineCap (colonWsStar s2),
    fun s => match litW "Identification of the substance" s with
      | none => none
      | some s1 => lineCap (colonWsStar s1) ]

/-- Case-sensitive substring test (used after lowering). -/
def takeLitEq : List Char → List Char → Option (List Char)
  | [], s => some s
  | _ :: _, [] => none
  | c :: cs, d :: ds => if d = c then takeLitEq cs ds else none

/-- Bool-valued search over suffixes. -/
def anyTail (p : List Char → Bool) : List Char → Bool
  | [] => p []
  | c :: cs => p (c :: cs) || anyTail p cs

/-- `needle in hay` for lists of characters. -/
def containsSub (needle hay : List Char) : Bool :=
  anyTail (fun t => (takeLitEq needle t).isSome) hay

/-- The section-header rejection heuristic (tasks.py line 434): candidates
longer than 60 characters or containing a slash or the word `company`. -/
def name_reject (extracted : List Char) : Bool :=
  60 < extracted.length || (lowerL extracted).any (fun c => c = '/')
    || containsSub "company".toList (lowerL extracted)

/-- The name loop (tasks.py lines 426-438): first candidate that survives the
rejection heuristic; rejected candidates fall through to the next pattern. -/
def nameLoop : List (List Char → Option (List Char)) → List Char → List Char
  | [], _ => ndaL
  | p :: ps, text =>
    match scanFor p text with
    | some cap => if name_reject (stripL cap) then nameLoop ps text else stripL cap
    | none => nameLoop ps text

/-- The `Composition` field. -/
def composition_of (text : List Char) : List Char := nameLoop name_patterns text

/-- `Vapou?r`. -/
def vapourWord (s : List Char) : Option (List Char) :=
  match litW "Vapo" s with
  | none => none
  | some s1 => litW "r" (optChar (fun c => c.toLower = 'u') s1)

/-- `Relative\s+vapou?r\s+density\s*:?\s*([\d,]+[.,]?\d*)`. -/
def rel_vap_density_pat (s : List Char) : Option (List Char) :=
  match litW "Relative" s with
  | none => none
  | some s1 =>
    match wsPlus s1 with
    | none => none
    | some s2 =>
      match vapourWord s2 with
      | none => none
      | some s3 =>
        match wsPlus s3 with
        | none => none
        | some s4 =>
          match litW "density" s4 with
          | none => none
          | some s5 => (numTokAt (colonSep s5)).map Prod.fst

/-- `(?:Auto|Self)[-\s]?ignition\s+temperature\s*:?\s*([\d,]+[.,]?\d*)`. -/
def ignition_pat (s : List Char) : Option (List Char) :=
  match ((litW "Auto" s).orElse fun _ => litW "Self" s) with
  | none => none
  | some s1 =>
    match litW "ignition" (optChar (fun c => c = '-' || pySpace c) s1) with
    | none => none
    | some s2 =>
      match wsPlus s2 with
      | none => none
      | some s3 =>
        match litW "temperature" s3 with
        | none => none
        | some s4 => (numTokAt (colonSep s4)).map Prod.fst

/-- `TLV\s*:?\s*([^\n\r]+)`. -/
def tlv_pat (s : List Char) : Option (List Char) :=
  match litW "TLV" s with
  | none => none
  | some s1 => lineCap (colonSep s1)

/-- `(mg|g|ppm|mL|L)` (captured), tried in source order. -/
def idlhUnit (s : List Char) : Option (List Char × List Char) :=
  (litWcap "mg" s).orElse fun _ => (litWcap "g" s).orElse fun _ =>
    (litWcap "ppm" s).orElse fun _ => (litWcap "mL" s).orElse fun _ => litWcap "L" s

/-- The lazy middle of `([0-9,]+.*?)\s*(mg|g|ppm|mL|L)`: the shortest
newline-free extension after which `\s*` plus a unit matches; returns the
middle and the matched unit. -/
def lc50_midUnit : List Char → Option (List Char × List Char)
  | [] =>
    match idlhUnit [] with
    | some (u, _) => some ([], u)
    | none => none
  | c :: cs =>
    match idlhUnit (wsStar (c :: cs)) with
    | some (u, _) => some ([], u)
    | none =>
      if c = '\n' then none
      else
        match lc50_midUnit cs with
        | none => none
        | some (mid, u) => some (c :: mid, u)

/-- `LC50\s*[-:]\s*.*?([0-9,]+.*?)\s*(mg|g|ppm|mL|L)`: two capture groups,
lazy same-line gaps (the group-1 digit run is the maximal one; a shorter run
can never help because a unit cannot start on a digit or comma). -/
def lc50_pat (s : List Char) : Option (List Char × List Char) :=
  match litW "LC50" s with
  | none => none
  | some s1 =>
    match oneChar (fun c => c = '-' || c = ':') (wsStar s1) with
    | none => none
    | some s2 =>
      dotStarThen (fun u =>
        if (u.takeWhile isNumChar).isEmpty then none
        else
          match lc50_midUnit (u.dropWhile isNumChar) with
          | none => none
          | some (mid, unit) => some (u.takeWhile isNumChar ++ mid, unit)) (wsStar s2)

/-- `os.path.splitext(...)[0]`: drop the extension starting at the last dot,
unless only dots precede it (tasks.py line 348). -/
def splitextBase (name : List Char) : List Char :=
  match (name.reverse).dropWhile (fun c => !(c = '.')) with
  | [] => name
  | _ :: preRev => if preRev.any (fun c => !(c = '.')) then preRev.reverse else name

/-! ### The Record schema (tasks.py lines 47-66 and 440-459) -/

/-- One extracted record: the fixed 18-field schema. -/
structure Record where
  description : List Char
  casNumber : List Char
  physicalState : List Char
  composition : List Char
  staticHazard : List Char
  vapourPressure : List Char
  atTemp : List Char
  flashPoint : List Char
  flammableLimits : List Char
  meltingPoint : List Char
  boilingPoint : List Char
  density : List Char
  relativeVapourDensity : List Char
  ignitionTemperature : List Char
  thresholdLimitValue : List Char
  immediateDanger : List Char
  toxicologicalLD50 : List Char
  sourceOfInformation : List Char
deriving DecidableEq, Repr

/-- `COLUMNS` (tasks.py lines 47-66), in source order. -/
def COLUMNS : List (List Char) :=
  ["Description".toList, "CAS Number".toList,
   "Physical state (solid/liquid/gas)".toList, "Composition".toList,
   "Static Hazard".toList, "Vapour Pressure (in mmHg)".toList,
   "at temp (in degC)".toList, "Flash Point (°C)".toList,
   "Flammable Limits by Volume (LEL, UEL)".toList, "Melting Point (°C)".toList,
   "Boiling Point (°C)".toList, "Density (g/cc)".toList,
   "Relative Vapour Density (Air = 1)".toList, "Ignition Temperature (°C)".toList,
   "Threshold Limit Value (ppm)".toList, "Immediate Danger to Life in Humans".toList,
   "Toxicological Info LD50 (mg/kg)".toList, "Source of Information".toList]

/-- Serialisation of a record as ordered key/value pairs (the dict literal of
tasks.py lines 440-459, whose insertion order coincides with `COLUMNS`). -/
def Record.toRow (r : Record) : List (List Char × List Char) :=
  [("Description".toList, r.description),
   ("CAS Number".toList, r.casNumber),
   ("Physical state (solid/liquid/gas)".toList, r.physicalState),
   ("Composition".toList, r.composition),
   ("Static Hazard".toList, r.staticHazard),
   ("Vapour Pressure (in mmHg)".toList, r.vapourPressure),
   ("at temp (in degC)".toList, r.atTemp),
   ("Flash Point (°C)".toList, r.flashPoint),
   ("Flammable Limits by Volume (LEL, UEL)".toList, r.flammableLimits),
   ("Melting Point (°C)".toList, r.meltingPoint),
   ("Boiling Point (°C)".toList, r.boilingPoint),
   ("Density (g/cc)".toList, r.density),
   ("Relative Vapour Density (Air = 1)".toList, r.relativeVapourDensity),
   ("Ignition Temperature (°C)".toList, r.ignitionTemperature),
   ("Threshold Limit Value (ppm)".toList, r.thresholdLimitValue),
   ("Immediate Danger to Life in Humans".toList, r.immediateDanger),
   ("Toxicological Info LD50 (mg/kg)".toList, r.toxicologicalLD50),
   ("Source of Information".toList, r.sourceOfInformation)]

/-- `parse_sds_data` (tasks.py lines 236-467).  All field extractors are
total except the vapour-pressure conversion, whose `float()` can raise
`ValueError`; an exception propagates out of the parse (and is caught
per-document by the task). -/
def parse_sds_data (text source_filename : List Char) : Except PyErr Record :=
  match vapour_pressure_of text with
  | .error e => .error e
  | .ok vp =>
    .ok {
      description := splitextBase source_filename,
      casNumber := extract_cas_number text,
      physicalState :=
        (if findBetween1 physical_state_pat text = ndaL then findBetween1 state_pat text
         else findBetween1 physical_state_pat text),
      composition := composition_of text,
      staticHazard := extract_static_hazard text,
      vapourPressure := vp,
      atTemp := vapour_temp_of text,
      flashPoint := findBetween1 (point_pat ["Flash", "point"]) text,
      flammableLimits := extract_flammable_limits text,
      meltingPoint := findBetween1 (point_pat ["Melting", "point"]) text,
      boilingPoint := findBetween1 (point_pat ["Boiling", "point"]) text,
      density := density_of text,
      relativeVapourDensity := findBetween1 rel_vap_density_pat text,
      ignitionTemperature := findBetween1 ignition_pat text,
      thresholdLimitValue := findBetween1 tlv_pat text,
      immediateDanger := findBetween2 lc50_pat text,
      toxicologicalLD50 := ld50_of text,
      sourceOfInformation := "MSDS".toList }


/-- Lookup of a column in an existing-spreadsheet row, defaulting to the
sentinel. -/
def lookupRow (row : List (List Char × List Char)) (k : List Char) : List Char :=
  match row.find? (fun p => p.1 = k) with
  | some p => p.2
  | none => ndaL

/-- Column enforcement on an existing-spreadsheet row (tasks.py lines
637-642): add every missing column as the sentinel and reindex to exactly the
18 schema columns in order. -/
def reindexRow (row : List (List Char × List Char)) : Record :=
  { description := lookupRow row "Description".toList,
    casNumber := lookupRow row "CAS Number".toList,
    physicalState := lookupRow row "Physical state (solid/liquid/gas)".toList,
    composition := lookupRow row "Composition".toList,
    staticHazard := lookupRow row "Static Hazard".toList,
    vapourPressure := lookupRow row "Vapour Pressure (in mmHg)".toList,
    atTemp := lookupRow row "at temp (in degC)".toList,
    flashPoint := lookupRow row "Flash Point (°C)".toList,
    flammableLimits := lookupRow row "Flammable Limits by Volume (LEL, UEL)".toList,
    meltingPoint := lookupRow row "Melting Point (°C)".toList,
    boilingPoint := lookupRow row "Boiling Point (°C)".toList,
    density := lookupRow row "Density (g/cc)".toList,
    relativeVapourDensity := lookupRow row "Relative Vapour Density (Air = 1)".toList,
    ignitionTemperature := lookupRow row "Ignition Temperature (°C)".toList,
    thresholdLimitValue := lookupRow row "Threshold Limit Value (ppm)".toList,
    immediateDanger := lookupRow row "Immediate Danger to Life in Humans".toList,
    toxicologicalLD50 := lookupRow row "Toxicological Info LD50 (mg/kg)".toList,
    sourceOfInformation := lookupRow row "Source of Information".toList }


/-! ### Same-batch merge (`merge_by_cas_number_optional`, tasks.py lines 469-497) -/

/-- `cas_key.lower() in ["nda", "", "n/a"]` on the stripped CAS value
(tasks.py line 482). -/
def isNoCasRow (r : Record) : Bool :=
  lowerL (stripL r.casNumber) = "nda".toList || lowerL (stripL r.casNumber) = [] ||
    lowerL (stripL r.casNumber) = "n/a".toList

/-- The no-CAS key `f"no_cas_{description}_{len(merged)}"` (tasks.py line 484). -/
def mkNoCasKey (d : List Char) (n : Nat) : List Char :=
  "no_cas_".toList ++ d ++ '_' :: natDec n

/-- `current in ["", "NDA", None, "n/a"]` (tasks.py line 493): the exact,
case-sensitive sentinel test of the merge (string fields are never `None`). -/
def isSentinelField (v : List Char) : Bool :=
  v = [] || v = "NDA".toList || v = "n/a".toList

/-- Merge one column (tasks.py lines 490-494): overwrite only a sentinel
current value with a non-sentinel new value. -/
def mergeField (cur new : List Char) : List Char :=
  if isSentinelField cur && !isSentinelField new then new else cur

/-- Field-by-field merge of a row into the accumulated record, over all the
18 `COLUMNS`. -/
def mergeRecord (cur n : Record) : Record :=
  { description := mergeField cur.description n.description,
    casNumber := mergeField cur.casNumber n.casNumber,
    physicalState := mergeField cur.physicalState n.physicalState,
    composition := mergeField cur.composition n.composition,
    staticHazard := mergeField cur.staticHazard n.staticHazard,
    vapourPressure := mergeField cur.vapourPressure n.vapourPressure,
    atTemp := mergeField cur.atTemp n.atTemp,
    flashPoint := mergeField cur.flashPoint n.flashPoint,
    flammableLimits := mergeField cur.flammableLimits n.flammableLimits,
    meltingPoint := mergeField cur.meltingPoint n.meltingPoint,
    boilingPoint := mergeField cur.boilingPoint n.boilingPoint,
    density := mergeField cur.density n.density,
    relativeVapourDensity := mergeField cur.relativeVapourDensity n.relativeVapourDensity,
    ignitionTemperature := mergeField cur.ignitionTemperature n.ignitionTemperature,
    thresholdLimitValue := mergeField cur.thresholdLimitValue n.thresholdLimitValue,
    immediateDanger := mergeField cur.immediateDanger n.immediateDanger,
    toxicologicalLD50 := mergeField cur.toxicologicalLD50 n.toxicologicalLD50,
    sourceOfInformation := mergeField cur.sourceOfInformation n.sourceOfInformation }

/-- The key a row is grouped under, given the current merged-dict size. -/
def rowKey (r : Record) (len : Nat) : List Char :=
  if isNoCasRow r then mkNoCasKey r.description len else stripL r.casNumber

/-- Lookup in the insertion-ordered merged dict. -/
def lookupA (m : List (List Char × Record)) (k : List Char) : Option Record :=
  match m.find? (fun p => p.1 = k) with
  | some p => some p.2
  | none => none

/-- In-place value update of the merged dict (order and keys preserved). -/
def updateA (m : List (List Char × Record)) (k : List Char) (v : Record) :
    List (List Char × Record) :=
  m.map (fun p => if p.1 = k then (k, v) else p)

/-- One iteration of the merge loop (tasks.py lines 480-494). -/
def mergeStep (m : List (List Char × Record)) (r : Record) : List (List Char × Record) :=
  match lookupA m (rowKey r m.length) with
  | none => m ++ [(rowKey r m.length, r)]
  | some cur => updateA m (rowKey r m.length) (mergeRecord cur r)

/-- `merge_by_cas_number_optional` (tasks.py lines 469-497): `[]` for no rows,
the rows untouched when merging is off, otherwise the values of the
insertion-ordered merged dict. -/
def merge_by_cas_number_optional (rows : List Record) (merge_duplicates : Bool) :
    List Record :=
  if rows.isEmpty then []
  else if !merge_duplicates then rows
  else (rows.foldl mergeStep []).map Prod.snd

/-- The 18 record fields, for field-generic statements. -/
inductive Field where
  | description | casNumber | physicalState | composition | staticHazard
  | vapourPressure | atTemp | flashPoint | flammableLimits | meltingPoint
  | boilingPoint | density | relativeVapourDensity | ignitionTemperature
  | thresholdLimitValue | immediateDanger | toxicologicalLD50 | sourceOfInformation
deriving DecidableEq, Repr

/-- Field projection. -/
def Record.get (r : Record) : Field → List Char
  | .description => r.description
  | .casNumber => r.casNumber
  | .physicalState => r.physicalState
  | .composition => r.composition
  | .staticHazard => r.staticHazard
  | .vapourPressure => r.vapourPressure
  | .atTemp => r.atTemp
  | .flashPoint => r.flashPoint
  | .flammableLimits => r.flammableLimits
  | .meltingPoint => r.meltingPoint
  | .boilingPoint => r.boilingPoint
  | .density => r.density
  | .relativeVapourDensity => r.relativeVapourDensity
  | .ignitionTemperature => r.ignitionTemperature
  | .thresholdLimitValue => r.thresholdLimitValue
  | .immediateDanger => r.immediateDanger
  | .toxicologicalLD50 => r.toxicologicalLD50
  | .sourceOfInformation => r.sourceOfInformation

/-- Rows produced by the extraction pipeline: the CAS value is either one of
the sentinels recognised by the merge, or a proper `\d{2,7}-\d{2}-\d` token
(claim C8's invariant).  This excludes adversarial CAS strings that could
collide with the synthetic `no_cas_...` keys. -/
def casOkRow (r : Record) : Bool :=
  isNoCasRow r || isCasShape (stripL r.casNumber)

/-- Membership test of a row in the group of a CAS key. -/
def belongsB (k : List Char) (r : Record) : Bool :=
  !isNoCasRow r && stripL r.casNumber = k

/-- Accumulator of a group under the merge loop. -/
def groupAccum (acc : Option Record) (r : Record) : Option Record :=
  match acc with
  | none => some r
  | some c => some (mergeRecord c r)


/-- Invariant of the merged dict during the fold of
`merge_by_cas_number_optional`: every entry is either keyed by a CAS-shaped
token that its record still carries, or by a synthetic no-CAS key whose index
is below the given dict size. -/
def GoodEntry (len : Nat) (p : List Char × Record) : Prop :=
  (isCasShape p.1 = true ∧ stripL p.2.casNumber = p.1)
  ∨ (∃ d i, p.1 = mkNoCasKey d i ∧ i < len)

/-- All entries of the merged dict are good for its current size. -/
def GoodDict (m : List (List Char × Record)) : Prop :=
  ∀ p ∈ m, GoodEntry m.length p

/-- An all-sentinel record with the constant source field, used to build the
concrete merge examples. -/
def blankRec : Record :=
  { description := ndaL, casNumber := ndaL, physicalState := ndaL, composition := ndaL,
    staticHazard := ndaL, vapourPressure := ndaL, atTemp := ndaL, flashPoint := ndaL,
    flammableLimits := ndaL, meltingPoint := ndaL, boilingPoint := ndaL, density := ndaL,
    relativeVapourDensity := ndaL, ignitionTemperature := ndaL,
    thresholdLimitValue := ndaL, immediateDanger := ndaL, toxicologicalLD50 := ndaL,
    sourceOfInformation := "MSDS".toList }

/-- First water record of the claim-C3 example: density still the sentinel. -/
def waterA : Record :=
  { blankRec with
    description := "water-a".toList, casNumber := "7732-18-5".toList,
    physicalState := "liquid".toList }

/-- Second water record of the claim-C3 example: density present. -/
def waterB : Record :=
  { blankRec with
    description := "water-b".toList, casNumber := "7732-18-5".toList,
    composition := "Water".toList, density := "1.0".toList }

/-- Expected merge of the two water records. -/
def waterMerged : Record :=
  { blankRec with
    description := "water-a".toList, casNumber := "7732-18-5".toList,
    physicalState := "liquid".toList, composition := "Water".toList,
    density := "1.0".toList }


/-- The existing CAS values as compared by `check_for_duplicates`
(tasks.py line 513): stripped, lowered, with "nda" discarded. -/
def existingCasSet (existing : List Record) : List (List Char) :=
  (existing.map (fun r => lowerL (stripL r.casNumber))).filter
    (fun v => !(v = "nda".toList))

/-- The existing descriptions as compared by `check_for_duplicates`
(tasks.py line 521): stripped and lowered, nothing discarded. -/
def existingDescSet (existing : List Record) : List (List Char) :=
  existing.map (fun r => lowerL (stripL r.description))

/-- The per-row CAS filter `~isin(existing_cas)` (tasks.py line 515). -/
def casNew (existing : List Record) (r : Record) : Bool :=
  !(existingCasSet existing).contains (lowerL (stripL r.casNumber))

/-- The per-row description filter `~isin(existing_desc)` (tasks.py line 522). -/
def descNew (existing : List Record) (r : Record) : Bool :=
  !(existingDescSet existing).contains (lowerL (stripL r.description))

/-- `check_for_duplicates` (tasks.py lines 499-538): mode "none" and an empty
existing dataset pass the new rows through; "both" keeps a row only when it is
new on CAS and on description (`filters[0] & filters[1]`, line 529); "cas" and
"description" each keep rows new on their single criterion; any other mode
builds no filters and passes the rows through. -/
def check_for_duplicates (existing new : List Record) (mode : List Char) :
    List Record :=
  if mode = "none".toList then new
  else if existing.length = 0 then new
  else if mode = "both".toList then
    new.filter (fun r => casNew existing r && descNew existing r)
  else if mode = "cas".toList then new.filter (fun r => casNew existing r)
  else if mode = "description".toList then new.filter (fun r => descNew existing r)
  else new

/-- A new record carrying the CAS of `waterA` but a different description. -/
def dupCasRec : Record :=
  { blankRec with
    description := "heavy water".toList, casNumber := "7732-18-5".toList }

/-- The value a Celery task invocation of `process_sds_files` returns:
either the failure dict `{success: False, error: ...}` or the success dict
(tasks.py lines 696-712) with the reconciled rows and counts. -/
inductive TaskResult where
  | failure (error : List Char)
  | success (rows : List Record) (processedFiles newEntries totalRows : Nat)
deriving DecidableEq, Repr

/-- Python `str` of an exception as interpolated by the handlers. -/
def pyStrFromErr : PyErr → List Char
  | .valueError m => m
  | .nameError v =>
    "name ".toList ++ pyQuote :: v ++ [pyQuote] ++ " is not defined".toList

/-- The batch-empty failure message (tasks.py line 594). -/
def noValidDataMsg : List Char :=
  ("No valid SDS data could be extracted from any PDF files. " ++
    "Please check if the PDFs contain readable text.").toList

/-- The message of the catch-all handler (tasks.py line 727) for the
`NameError` raised at tasks.py line 699, where the undefined name `message`
is read while building the success dict. -/
def taskErrorMsg : List Char :=
  "Task processing error: ".toList ++ pyStrFromErr (PyErr.nameError "message".toList)

/-- One iteration of the extraction loop (tasks.py lines 559-587): a file
whose text strips to empty is skipped, a parse error is caught and skipped,
and a parsed record is appended to `all_data`. -/
def collectStep (acc : List Record) (fp : List Char × List Char) : List Record :=
  if (stripL fp.2).isEmpty = true then acc
  else match parse_sds_data fp.2 fp.1 with
    | .ok r => acc ++ [r]
    | .error _ => acc

/-- `all_data` after the extraction loop, from (filename, extracted text)
pairs. -/
def collectData (files : List (List Char × List Char)) : List Record :=
  files.foldl collectStep []

/-- The Excel reconciliation (tasks.py lines 633-659): with a readable
existing dataset, run the duplicate check and concatenate the survivors;
a read failure falls back to the new rows alone.  Returns
(combined, new_entries). -/
def reconcile (new : List Record) (excel : Option (List Record))
    (duplicate_check : List Char) : List Record × List Record :=
  match excel with
  | some ex =>
    let ne := check_for_duplicates ex new duplicate_check
    (if 0 < ne.length then ex ++ ne else ex, ne)
  | none => (new, new)

/-- `process_sds_files` (tasks.py lines 540-742) viewed from its return value,
with PDF text extraction abstracted into the given (filename, text) pairs and
the Excel read into `excel`.  An empty `all_data` returns the failure dict of
lines 591-595.  Otherwise the code merges, reconciles and saves, but then
evaluates the undefined name `message` at line 699 while building the success
dict; the resulting `NameError` reaches the catch-all handler (lines 727-742),
so the return value is the task-error failure and `combined_and_new` is
discarded. -/
def process_sds_files (files : List (List Char × List Char))
    (excel : Option (List Record)) (merge_duplicates : Bool)
    (duplicate_check : List Char) : TaskResult :=
  let all_data := collectData files
  if all_data.isEmpty then TaskResult.failure noValidDataMsg
  else
    let processed_data := merge_by_cas_number_optional all_data merge_duplicates
    let combined_and_new := reconcile processed_data excel duplicate_check
    TaskResult.failure taskErrorMsg

-- ===== THEOREMS =====

/-- Every element of `takeWhile p l` satisfies `p`. -/
theorem all_of_mem_takeWhile {p : Char → Bool} :
    ∀ {l : List Char} {c : Char}, c ∈ l.takeWhile p → p c = true := by
  intro l
  induction l with
  | nil => intro c h; simp [List.takeWhile] at h
  | cons a t ih =>
    intro c h
    rw [List.takeWhile_cons] at h
    by_cases hp : p a
    · simp only [hp, if_pos] at h
      rcases List.mem_cons.mp h with h | h
      · exact h ▸ hp
      · exact ih h
    · simp [hp] at h

/-- If all of `a` satisfies `p` and `b` does not start with a `p`-element,
`takeWhile` and `dropWhile` of `a ++ b` split exactly at the boundary. -/
theorem takeWhile_app {p : Char → Bool} {a b : List Char}
    (ha : ∀ c ∈ a, p c = true) (hb : ∀ c t, b = c :: t → p c = false) :
    (a ++ b).takeWhile p = a ∧ (a ++ b).dropWhile p = b := by
  induction a with
  | nil =>
    cases b with
    | nil => simp
    | cons c t =>
      have := hb c t rfl
      simp [List.takeWhile_cons, List.dropWhile_cons, this]
  | cons x xs ih =>
    have hx : p x = true := ha x (by simp)
    have ih' := ih (fun c hc => ha c (by simp [hc]))
    simp [List.takeWhile_cons, List.dropWhile_cons, hx, ih'.1, ih'.2]

/-- `dropWhile` is the identity when no element satisfies the predicate. -/
theorem dropWhile_eq_self_all {p : Char → Bool} {l : List Char}
    (h : ∀ c ∈ l, p c = false) : l.dropWhile p = l := by
  cases l with
  | nil => rfl
  | cons c t => simp [List.dropWhile_cons, h c (by simp)]

/-- `takeWhile` is the identity when every element satisfies the predicate. -/
theorem takeWhile_eq_self_all {p : Char → Bool} {l : List Char}
    (h : ∀ c ∈ l, p c = true) : l.takeWhile p = l := by
  have := takeWhile_app (a := l) (b := []) h (by intro c t ht; cases ht)
  simpa using this.1

/-- `dropWhile` eats the whole list when every element satisfies the predicate. -/
theorem dropWhile_eq_nil_all {p : Char → Bool} {l : List Char}
    (h : ∀ c ∈ l, p c = true) : l.dropWhile p = [] := by
  have := takeWhile_app (a := l) (b := []) h (by intro c t ht; cases ht)
  simpa using this.2

/-- A map that fixes every element of the list is the identity on it. -/
theorem map_id_of {f : Char → Char} :
    ∀ {l : List Char}, (∀ c ∈ l, f c = c) → l.map f = l := by
  intro l
  induction l with
  | nil => intro _; rfl
  | cons a t ih =>
    intro h
    simp only [List.map_cons, h a (by simp), ih (fun c hc => h c (by simp [hc])), List.cons.injEq,
      and_self]

/-- The token returned by `numTokenAt` has the `goodTok` shape. -/
theorem numTokenAt_good {s t : List Char} (h : numTokenAt s = some t) :
    goodTok t = true := by
  unfold numTokenAt at h
  by_cases h1 : (s.takeWhile isNumChar).isEmpty
  · simp [h1] at h
  · rw [if_neg h1] at h
    have hall : ∀ c ∈ s.takeWhile isNumChar, isNumChar c = true :=
      fun c hc => all_of_mem_takeWhile hc
    by_cases h2 : (s.dropWhile isNumChar).head? = some '.'
    · rw [if_pos h2] at h
      injection h with h
      subst h
      have hsplit := takeWhile_app (p := isNumChar) (a := s.takeWhile isNumChar)
        (b := '.' :: (s.dropWhile isNumChar).tail.takeWhile Char.isDigit) hall
        (by intro c u hcu; injection hcu with e1 _; subst e1; decide)
      unfold goodTok
      rw [hsplit.1, hsplit.2]
      simp only [goodTokTail, h1, List.all_eq_true]
      simp only [List.isEmpty_cons, List.head?_cons, List.tail_cons, Bool.not_false,
        Bool.true_and, Bool.false_or, Bool.and_eq_true, decide_eq_true_eq, List.all_eq_true]
      exact ⟨trivial, fun c hc => all_of_mem_takeWhile hc⟩
    · rw [if_neg h2] at h
      injection h with h
      subst h
      have e1 : (s.takeWhile isNumChar).takeWhile isNumChar = s.takeWhile isNumChar :=
        takeWhile_eq_self_all hall
      have e2 : (s.takeWhile isNumChar).dropWhile isNumChar = [] :=
        dropWhile_eq_nil_all hall
      unfold goodTok
      rw [e1, e2]
      simp [goodTokTail, h1]

/-- Any token found by `findNumToken` has the `goodTok` shape. -/
theorem findNumToken_good : ∀ {s t : List Char}, findNumToken s = some t → goodTok t = true := by
  intro s
  induction s with
  | nil => intro t h; simp [findNumToken] at h
  | cons c cs ih =>
    intro t h
    rw [findNumToken] at h
    cases hna : numTokenAt (c :: cs) with
    | some u => rw [hna] at h; injection h with h; exact h ▸ numTokenAt_good hna
    | none => rw [hna] at h; exact ih h

/-- The comma-decimal sub is the identity when the string does not end in
`digits,digits`. -/
theorem fix_of_not_ends {t : List Char} (h : endsCommaDec t = false) :
    fixDecimalComma t = t := by
  unfold fixDecimalComma
  simp [h]

/-- A well-shaped token stays well shaped under the comma-decimal sub, and the
result never ends in `digits,digits` again. -/
theorem fix_good {t : List Char} (h : goodTok t = true) :
    goodTok (fixDecimalComma t) = true ∧ endsCommaDec (fixDecimalComma t) = false := by
  by_cases he : endsCommaDec t = true
  · -- the sub fires: t must be a pure digits/commas run
    have hrun : ¬(t.takeWhile isNumChar).isEmpty := by
      unfold goodTok at h
      exact fun hemp => by simp [hemp] at h
    have htail : goodTokTail (t.dropWhile isNumChar) = true := by
      unfold goodTok at h
      exact (Bool.and_eq_true_iff.mp h).2
    -- first: the dropWhile part of t must be empty
    have hpure : t.dropWhile isNumChar = [] := by
      cases hdw : t.dropWhile isNumChar with
      | nil => rfl
      | cons x xs =>
        exfalso
        rw [hdw] at htail
        unfold goodTokTail at htail
        simp only [List.isEmpty_cons, List.head?_cons, List.tail_cons, Bool.false_or,
          Bool.and_eq_true, decide_eq_true_eq, Option.some.injEq] at htail
        obtain ⟨hx, hxs⟩ := htail
        subst hx
        -- t = run ++ '.' :: xs with xs all digits; then t.reverse cannot end-check a comma
        have hsplit := List.takeWhile_append_dropWhile (p := isNumChar) (l := t)
        rw [hdw] at hsplit
        have hrev : t.reverse = xs.reverse ++ '.' :: (t.takeWhile isNumChar).reverse := by
          conv_lhs => rw [← hsplit]
          simp
        have hx_all : ∀ c ∈ xs.reverse, Char.isDigit c = true := by
          intro c hc
          exact (List.all_eq_true.mp hxs) c (List.mem_reverse.mp hc)
        have happ := takeWhile_app (p := Char.isDigit) (a := xs.reverse)
          (b := '.' :: (t.takeWhile isNumChar).reverse) hx_all
          (by intro c u hcu; injection hcu with e1 _; subst e1; decide)
        unfold endsCommaDec at he
        rw [hrev, happ.2] at he
        simp at he
    have hall_t : ∀ c ∈ t, isNumChar c = true := by
      have hsplit := List.takeWhile_append_dropWhile (p := isNumChar) (l := t)
      rw [hpure, List.append_nil] at hsplit
      intro c hc
      exact all_of_mem_takeWhile (hsplit ▸ hc)
    -- unpack the ends-check
    unfold endsCommaDec at he
    simp only [Bool.and_eq_true, Bool.not_eq_true', List.isEmpty_eq_false,
      decide_eq_true_eq] at he
    obtain ⟨⟨hds, hcomma⟩, hdig⟩ := he
    cases hrest : (t.reverse).dropWhile Char.isDigit with
    | nil => rw [hrest] at hcomma; simp at hcomma
    | cons c0 rest' =>
      rw [hrest] at hcomma hdig
      simp only [List.head?_cons, Option.some.injEq] at hcomma
      subst hcomma
      cases hrest' : rest' with
      | nil => rw [hrest'] at hdig; simp at hdig
      | cons d u =>
        rw [hrest'] at hdig
        simp only [List.tail_cons, List.head?_cons, Option.map_some', Option.getD_some] at hdig
        subst hrest'
        -- now t.reverse = ds ++ ',' :: d :: u, and the sub produces (ds ++ '.' :: d :: u).reverse
        have hfix : fixDecimalComma t =
            ((t.reverse).takeWhile Char.isDigit ++ '.' :: d :: u).reverse := by
          unfold fixDecimalComma
          rw [if_pos (by
            unfold endsCommaDec
            rw [hrest]
            simp [hds, hdig])]
          rw [hrest]
          rfl
        have hrev_split := List.takeWhile_append_dropWhile (p := Char.isDigit) (l := t.reverse)
        rw [hrest] at hrev_split
        have hmem_rev : ∀ c ∈ t.reverse, isNumChar c = true := by
          intro c hc
          exact hall_t c (List.mem_reverse.mp hc)
        have hds_all : ∀ c ∈ (t.reverse).takeWhile Char.isDigit, Char.isDigit c = true :=
          fun c hc => all_of_mem_takeWhile hc
        have hu_num : ∀ c ∈ u, isNumChar c = true := by
          intro c hc
          apply hmem_rev
          rw [← hrev_split]
          simp [hc]
        have hd_num : isNumChar d = true := by simp [isNumChar, hdig]
        -- the rewritten token, front to back
        have hF : ((t.reverse).takeWhile Char.isDigit ++ '.' :: d :: u).reverse =
            (u.reverse ++ [d]) ++ '.' :: ((t.reverse).takeWhile Char.isDigit).reverse := by
          simp
        rw [hfix, hF]
        have hA_num : ∀ c ∈ u.reverse ++ [d], isNumChar c = true := by
          intro c hc
          rcases List.mem_append.mp hc with hc | hc
          · exact hu_num c (List.mem_reverse.mp hc)
          · rcases List.mem_singleton.mp hc with rfl
            exact hd_num
        have happA := takeWhile_app (p := isNumChar) (a := u.reverse ++ [d])
          (b := '.' :: ((t.reverse).takeWhile Char.isDigit).reverse) hA_num
          (by intro c w hcw; injection hcw with e1 _; subst e1; decide)
        constructor
        · unfold goodTok
          rw [happA.1, happA.2]
          simp [goodTokTail, List.all_eq_true]
        · unfold endsCommaDec
          rw [List.reverse_append]
          have : (('.' :: ((t.reverse).takeWhile Char.isDigit).reverse).reverse ++
              (u.reverse ++ [d]).reverse) =
              ((t.reverse).takeWhile Char.isDigit) ++ '.' :: (u.reverse ++ [d]).reverse := by
            simp
          rw [this]
          have happB := takeWhile_app (p := Char.isDigit) (a := (t.reverse).takeWhile Char.isDigit)
            (b := '.' :: (u.reverse ++ [d]).reverse) hds_all
            (by intro c w hcw; injection hcw with e1 _; subst e1; decide)
          rw [happB.2]
          simp
  · have he' : endsCommaDec t = false := by simpa using he
    rw [fix_of_not_ends he']
    exact ⟨h, he'⟩

/-- All characters of a well-shaped token are digits, commas or a dot. -/
theorem goodTok_all_numDot {t : List Char} (h : goodTok t = true) :
    ∀ c ∈ t, numDotChar c = true := by
  intro c hc
  have hsplit := List.takeWhile_append_dropWhile (p := isNumChar) (l := t)
  rw [← hsplit] at hc
  rcases List.mem_append.mp hc with hc | hc
  · simp [numDotChar, all_of_mem_takeWhile hc]
  · have htail : goodTokTail (t.dropWhile isNumChar) = true := by
      unfold goodTok at h
      exact (Bool.and_eq_true_iff.mp h).2
    cases hdw : t.dropWhile isNumChar with
    | nil => rw [hdw] at hc; simp at hc
    | cons x xs =>
      rw [hdw] at hc htail
      unfold goodTokTail at htail
      simp only [List.isEmpty_cons, List.head?_cons, List.tail_cons, Bool.false_or,
        Bool.and_eq_true, decide_eq_true_eq, Option.some.injEq] at htail
      obtain ⟨hx, hxs⟩ := htail
      subst hx
      rcases List.mem_cons.mp hc with rfl | hc
      · simp [numDotChar]
      · have := (List.all_eq_true.mp hxs) c hc
        simp [numDotChar, isNumChar, this]

/-- A well-shaped token starts with a digit or a comma. -/
theorem goodTok_head {t : List Char} (h : goodTok t = true) :
    ∃ c cs, t = c :: cs ∧ isNumChar c = true := by
  cases t with
  | nil => simp [goodTok, List.takeWhile] at h
  | cons c cs =>
    refine ⟨c, cs, rfl, ?_⟩
    by_cases hc : isNumChar c
    · exact hc
    · unfold goodTok at h
      rw [List.takeWhile_cons_of_neg (by simpa using hc)] at h
      simp at h

/-- Digits, commas and dots are unaffected by `Char.toLower`. -/
theorem numDot_toLower {c : Char} (h : numDotChar c = true) : c.toLower = c := by
  have hlt : c.toNat < 65 := by
    simp only [numDotChar, isNumChar, Bool.or_eq_true, decide_eq_true_eq] at h
    rcases h with (hd | hc) | hc
    · simp [Char.isDigit] at hd
      exact lt_of_le_of_lt hd.2 (by norm_num)
    · subst hc; decide
    · subst hc; decide
  unfold Char.toLower
  have : ¬(c.toNat ≥ 65 ∧ c.toNat ≤ 90) := by omega
  simp [this]

/-- Digits, commas and dots are not Python whitespace. -/
theorem numDot_not_space {c : Char} (h : numDotChar c = true) : pySpace c = false := by
  by_cases hs : pySpace c = true
  · exfalso
    simp only [pySpace, Bool.or_eq_true, decide_eq_true_eq] at hs
    rcases hs with ((((rfl | rfl) | rfl) | rfl) | rfl) | rfl <;> simp [numDotChar, isNumChar] at h
  · simpa using hs

/-- Digits, commas and dots are not leading punctuation. -/
theorem numDot_not_punct {c : Char} (h : numDotChar c = true) :
    (c = ':' || c = '-' || pySpace c) = false := by
  have hns := numDot_not_space h
  have h1 : c ≠ ':' := by
    rintro rfl; simp [numDotChar, isNumChar] at h
  have h2 : c ≠ '-' := by
    rintro rfl; simp [numDotChar, isNumChar] at h
  simp [h1, h2, hns]

/-- A fixed well-shaped token is a fixed point of `clean_numeric_value`. -/
theorem clean_fixed {t : List Char} (hg : goodTok t = true) (he : endsCommaDec t = false) :
    clean_numeric_value t = t := by
  obtain ⟨c0, cs, rfl, hc0⟩ := goodTok_head hg
  have hall := goodTok_all_numDot hg
  have hlower : lowerL (c0 :: cs) = c0 :: cs :=
    map_id_of (fun c hc => numDot_toLower (hall c hc))
  have hcneq : c0 ≠ 'n' := by
    rintro rfl
    simp [isNumChar] at hc0
  have hguard : isNoDataTok (c0 :: cs) = false := by
    unfold isNoDataTok
    rw [hlower]
    simp [hcneq]
  have hnospace : ∀ c ∈ (c0 :: cs), pySpace c = false :=
    fun c hc => numDot_not_space (hall c hc)
  have hstrip : stripL (c0 :: cs) = c0 :: cs := by
    unfold stripL
    rw [dropWhile_eq_self_all hnospace,
      dropWhile_eq_self_all (fun c hc => hnospace c (List.mem_reverse.mp hc)),
      List.reverse_reverse]
  have hpunct : dropLeadPunct (c0 :: cs) = c0 :: cs :=
    dropWhile_eq_self_all (fun c hc => numDot_not_punct (hall c hc))
  have hnum : numTokenAt (c0 :: cs) = some (c0 :: cs) := by
    unfold numTokenAt
    have hrun : ¬((c0 :: cs).takeWhile isNumChar).isEmpty = true := by
      unfold goodTok at hg
      exact fun hemp => by simp [hemp] at hg
    rw [if_neg hrun]
    have htail : goodTokTail ((c0 :: cs).dropWhile isNumChar) = true := by
      unfold goodTok at hg
      exact (Bool.and_eq_true_iff.mp hg).2
    have hsplit := List.takeWhile_append_dropWhile (p := isNumChar) (l := c0 :: cs)
    cases hdw : (c0 :: cs).dropWhile isNumChar with
    | nil =>
      rw [hdw, List.append_nil] at hsplit
      rw [if_neg (by simp)]
      rw [hsplit]
    | cons x xs =>
      rw [hdw] at htail hsplit
      unfold goodTokTail at htail
      simp only [List.isEmpty_cons, List.head?_cons, List.tail_cons, Bool.false_or,
        Bool.and_eq_true, decide_eq_true_eq, Option.some.injEq] at htail
      obtain ⟨hx, hxs⟩ := htail
      subst hx
      rw [if_pos (by simp)]
      simp only [List.tail_cons]
      rw [takeWhile_eq_self_all (List.all_eq_true.mp hxs)]
      rw [hsplit]
  have hfind : findNumToken (c0 :: cs) = some (c0 :: cs) := by
    rw [findNumToken, hnum]
  unfold clean_numeric_value
  rw [hguard]
  simp only [Bool.false_eq_true, if_false]
  rw [hstrip, hpunct, hfind]
  exact fix_of_not_ends he

/-- The output of `clean_numeric_value` is either the sentinel or a fixed
well-shaped number token. -/
theorem clean_shape (s : List Char) :
    clean_numeric_value s = ndaL ∨
      (goodTok (clean_numeric_value s) = true ∧ endsCommaDec (clean_numeric_value s) = false) := by
  unfold clean_numeric_value
  by_cases hguard : isNoDataTok s = true
  · rw [if_pos hguard]; exact Or.inl rfl
  · rw [if_neg hguard]
    cases hf : findNumToken (dropLeadPunct (stripL s)) with
    | none => exact Or.inl rfl
    | some tok => exact Or.inr (fix_good (findNumToken_good hf))

/-- Claim C6: numeric normalization is idempotent — for every input string x,
`clean_numeric_value (clean_numeric_value x) = clean_numeric_value x`. -/
theorem claim_C6_clean_numeric_idempotent (s : List Char) :
    clean_numeric_value (clean_numeric_value s) = clean_numeric_value s := by
  rcases clean_shape s with h | ⟨h1, h2⟩
  · rw [h]
    decide
  · exact clean_fixed h1 h2

/-- If the anchored matcher succeeds at some suffix position, the left-to-right
scan succeeds. -/
theorem scanFor_isSome_of_suffix {α : Type} {m : List Char → Option α} {s t : List Char}
    (hsuf : t <:+ s) (h : (m t).isSome = true) : (scanFor m s).isSome = true := by
  induction s with
  | nil =>
    rw [List.suffix_nil] at hsuf
    subst hsuf
    exact h
  | cons c cs ih =>
    rw [scanFor]
    rcases List.suffix_cons_iff.mp hsuf with rfl | hsuf
    · cases hm : m (c :: cs) with
      | some v => simp
      | none => rw [hm] at h; simp at h
    · cases hm : m (c :: cs) with
      | some v => simp
      | none => exact ih hsuf

/-- The first static pattern (`static\s+discharge`) matches at the start of
`"static discharge" ++ q` for any continuation `q`. -/
theorem staticDischarge_at (q : List Char) :
    (do
      let s ← litW "static" ("static discharge".toList ++ q)
      let s ← wsPlus s
      litW "discharge" s : Option (List Char)) = some q := rfl

/-- Claim C7: static-hazard classification is a three-tier decision with fixed
precedence: explicit "no static hazard" phrasing yields "No" even when static
synonyms also appear; otherwise any static synonym (e.g. a text containing
"static discharge") yields "Yes"; otherwise a handling/storage section header
with no static mention yields "No"; otherwise "NDA". -/
theorem claim_C7_static_hazard_tiers :
    (∀ text : List Char, anyPattern no_static_patterns text = true →
      extract_static_hazard text = "No".toList)
  ∧ (∀ text : List Char, anyPattern no_static_patterns text = false →
      "static discharge".toList <:+: text →
      extract_static_hazard text = "Yes".toList)
  ∧ (∀ text : List Char, anyPattern no_static_patterns text = false →
      anyPattern static_patterns text = false →
      anyPattern handling_sections text = true →
      extract_static_hazard text = "No".toList)
  ∧ (∀ text : List Char, anyPattern no_static_patterns text = false →
      anyPattern static_patterns text = false →
      anyPattern handling_sections text = false →
      extract_static_hazard text = "NDA".toList) := by
  refine ⟨?_, ?_, ?_, ?_⟩
  · intro text h
    simp [extract_static_hazard, h]
  · intro text hno hinf
    have hfound : anyPattern static_patterns text = true := by
      obtain ⟨s, t, heq⟩ := hinf
      subst heq
      unfold anyPattern
      apply List.any_eq_true.mpr
      refine ⟨_, List.mem_cons_self _ _, ?_⟩
      unfold reSearch
      apply scanFor_isSome_of_suffix (t := "static discharge".toList ++ t)
      · exact ⟨s, by simp⟩
      · rw [staticDischarge_at t]
        rfl
    simp [extract_static_hazard, hno, hfound]
  · intro text h1 h2 h3
    simp [extract_static_hazard, h1, h2, h3]
  · intro text h1 h2 h3
    simp [extract_static_hazard, h1, h2, h3]

/-- Witness for C7 at concrete texts, one per tier. -/
theorem claim_C7_witness :
    extract_static_hazard "No static hazard known.".toList = "No".toList
  ∧ extract_static_hazard "Avoid static discharge.".toList = "Yes".toList
  ∧ extract_static_hazard "Handling and storage: keep closed.".toList = "No".toList
  ∧ extract_static_hazard "Hello.".toList = "NDA".toList := by
  refine ⟨?_, ?_, ?_, ?_⟩
  · exact claim_C7_static_hazard_tiers.1 _ (by decide)
  · exact claim_C7_static_hazard_tiers.2.1 _ (by decide)
      ⟨"Avoid ".toList, ".".toList, by decide⟩
  · exact claim_C7_static_hazard_tiers.2.2.1 _ (by decide) (by decide) (by decide)
  · exact claim_C7_static_hazard_tiers.2.2.2 _ (by decide) (by decide) (by decide)

/-- A token assembled from a digit run and the `-dd-d` tail is CAS-shaped. -/
theorem casShapeAt_self {run : List Char} {a b c2 : Char}
    (hrun : ∀ x ∈ run, x.isDigit = true) (hlen : 2 ≤ run.length ∧ run.length ≤ 7)
    (ha : a.isDigit = true) (hb : b.isDigit = true) (hc : c2.isDigit = true) :
    isCasShape (run ++ '-' :: a :: b :: '-' :: [c2]) = true := by
  have happ := takeWhile_app (p := Char.isDigit) (a := run) (b := '-' :: a :: b :: '-' :: [c2])
    hrun (by intro x u hx; injection hx with e1 _; subst e1; decide)
  unfold isCasShape casShapeAt
  rw [happ.1, happ.2, if_pos hlen]
  simp [ha, hb, hc]

/-- The capture of `casShapeAt` is itself CAS-shaped. -/
theorem casShapeAt_shape {s cap rest : List Char} (h : casShapeAt s = some (cap, rest)) :
    isCasShape cap = true := by
  unfold casShapeAt at h
  by_cases hlen : 2 ≤ (s.takeWhile Char.isDigit).length ∧ (s.takeWhile Char.isDigit).length ≤ 7
  · rw [if_pos hlen] at h
    split at h
    · rename_i a b c2 rest2 heq
      by_cases hdig : (a.isDigit && b.isDigit && c2.isDigit) = true
      · rw [if_pos hdig] at h
        injection h with h
        obtain ⟨h1, h2, h3⟩ : a.isDigit = true ∧ b.isDigit = true ∧ c2.isDigit = true := by
          simpa [Bool.and_eq_true, and_assoc] using hdig
        have hcap : cap = s.takeWhile Char.isDigit ++ '-' :: a :: b :: '-' :: [c2] :=
          (congrArg Prod.fst h).symm
        rw [hcap]
        exact casShapeAt_self (fun x hx => all_of_mem_takeWhile hx) hlen h1 h2 h3
      · rw [if_neg hdig] at h; cases h
    · cases h
  · rw [if_neg hlen] at h; cases h

/-- The capture and rest of `casShapeAt` reassemble the input. -/
theorem casShapeAt_app {s cap rest : List Char} (h : casShapeAt s = some (cap, rest)) :
    cap ++ rest = s := by
  unfold casShapeAt at h
  by_cases hlen : 2 ≤ (s.takeWhile Char.isDigit).length ∧ (s.takeWhile Char.isDigit).length ≤ 7
  · rw [if_pos hlen] at h
    split at h
    · rename_i a b c2 rest2 heq
      by_cases hdig : (a.isDigit && b.isDigit && c2.isDigit) = true
      · rw [if_pos hdig] at h
        injection h with h
        have hcap : cap = s.takeWhile Char.isDigit ++ '-' :: a :: b :: '-' :: [c2] :=
          (congrArg Prod.fst h).symm
        have hrest : rest = rest2 := (congrArg Prod.snd h).symm
        rw [hcap, hrest]
        have := List.takeWhile_append_dropWhile (p := Char.isDigit) (l := s)
        rw [heq] at this
        simpa using this
      · rw [if_neg hdig] at h; cases h
    · cases h
  · rw [if_neg hlen] at h; cases h

/-- Every character of a CAS-shaped token is a digit or a hyphen. -/
theorem isCasShape_chars {v : List Char} (h : isCasShape v = true) :
    ∀ x ∈ v, (x.isDigit || x = '-') = true := by
  unfold isCasShape at h
  cases hc : casShapeAt v with
  | none => rw [hc] at h; cases h
  | some pr =>
    obtain ⟨cap, rest⟩ := pr
    rw [hc] at h
    simp only [List.isEmpty_eq_true] at h
    subst h
    have hv : cap = v := by simpa using casShapeAt_app hc
    subst hv
    intro x hx
    unfold casShapeAt at hc
    by_cases hlen : 2 ≤ (cap.takeWhile Char.isDigit).length ∧ (cap.takeWhile Char.isDigit).length ≤ 7
    · rw [if_pos hlen] at hc
      split at hc
      · rename_i a b c2 rest2 heq
        by_cases hdig : (a.isDigit && b.isDigit && c2.isDigit) = true
        · rw [if_pos hdig] at hc
          injection hc with hc
          obtain ⟨h1, h2, h3⟩ : a.isDigit = true ∧ b.isDigit = true ∧ c2.isDigit = true := by
            simpa [Bool.and_eq_true, and_assoc] using hdig
          have hcap : cap = cap.takeWhile Char.isDigit ++ '-' :: a :: b :: '-' :: [c2] :=
            (congrArg Prod.fst hc).symm
          rw [hcap] at hx
          rcases List.mem_append.mp hx with hx | hx
          · simp [all_of_mem_takeWhile hx]
          · rcases hx with _ | ⟨_, hx⟩
            · simp
            · rcases hx with _ | ⟨_, hx⟩
              · simp [h1]
              · rcases hx with _ | ⟨_, hx⟩
                · simp [h2]
                · rcases hx with _ | ⟨_, hx⟩
                  · simp
                  · rcases hx with _ | ⟨_, hx⟩
                    · simp [h3]
                    · cases hx
        · rw [if_neg hdig] at hc; cases hc
      · cases hc
    · rw [if_neg hlen] at hc; cases hc

/-- Stripping is a no-op on CAS-shaped tokens. -/
theorem stripL_casShape {v : List Char} (h : isCasShape v = true) : stripL v = v := by
  have hchars := isCasShape_chars h
  have hns : ∀ x ∈ v, pySpace x = false := by
    intro x hx
    have hx2 : x.isDigit = true ∨ x = '-' := by simpa using hchars x hx
    rcases hx2 with hd | hd
    · exact numDot_not_space (by simp [numDotChar, isNumChar, hd])
    · subst hd
      decide
  unfold stripL
  rw [dropWhile_eq_self_all hns,
    dropWhile_eq_self_all (fun x hx => hns x (List.mem_reverse.mp hx)),
    List.reverse_reverse]

/-- Transfer a property of the anchored matcher along `scanFor`. -/
theorem scanFor_prop {α : Type} {P : α → Prop} {m : List Char → Option α}
    (hm : ∀ s v, m s = some v → P v) :
    ∀ {text : List Char} {v : α}, scanFor m text = some v → P v := by
  intro text
  induction text with
  | nil => intro v h; exact hm [] v h
  | cons c cs ih =>
    intro v h
    rw [scanFor] at h
    cases hmc : m (c :: cs) with
    | some w => rw [hmc] at h; injection h with h; exact h ▸ hm _ _ hmc
    | none => rw [hmc] at h; exact ih h

/-- Transfer a property of the individual searches along `firstSome`. -/
theorem firstSome_prop {P : List Char → Prop} :
    ∀ {fs : List (List Char → Option (List Char))} {text v : List Char},
      (∀ f ∈ fs, ∀ t w, f t = some w → P w) → firstSome fs text = some v → P v := by
  intro fs
  induction fs with
  | nil => intro text v _ h; simp [firstSome] at h
  | cons f rest ih =>
    intro text v hall h
    rw [firstSome] at h
    cases hf : f text with
    | some w => rw [hf] at h; injection h with h; exact h ▸ hall f (by simp) text w hf
    | none => rw [hf] at h; exact ih (fun g hg => hall g (by simp [hg])) h

/-- Pattern 1 captures a CAS-shaped token. -/
theorem cas_pattern1_shape {s cap : List Char} (h : cas_pattern1 s = some cap) :
    isCasShape cap = true := by
  unfold cas_pattern1 at h
  split at h
  · cases h
  · split at h
    · cases h
    · rename_i heq
      injection h with h
      exact h ▸ casShapeAt_shape heq

/-- Pattern 2 captures a CAS-shaped token. -/
theorem cas_pattern2_shape {s cap : List Char} (h : cas_pattern2 s = some cap) :
    isCasShape cap = true := by
  unfold cas_pattern2 at h
  split at h
  · cases h
  · split at h
    · cases h
    · split at h
      · cases h
      · split at h
        · cases h
        · rename_i heq
          injection h with h
          exact h ▸ casShapeAt_shape heq

/-- Pattern 3 captures a CAS-shaped token. -/
theorem cas_pattern3_shape {s cap : List Char} (h : cas_pattern3 s = some cap) :
    isCasShape cap = true := by
  unfold cas_pattern3 at h
  split at h
  · cases h
  · split at h
    · cases h
    · split at h
      · cases h
      · split at h
        · cases h
        · rename_i heq
          injection h with h
          exact h ▸ casShapeAt_shape heq

/-- Pattern 4 captures a CAS-shaped token. -/
theorem cas_pattern4_shape {s cap : List Char} (h : cas_pattern4 s = some cap) :
    isCasShape cap = true := by
  unfold cas_pattern4 at h
  split at h
  · cases h
  · split at h
    · cases h
    · rename_i heq
      injection h with h
      exact h ▸ casShapeAt_shape heq

/-- Pattern 5 captures a CAS-shaped token. -/
theorem cas_pattern5_shape {s cap : List Char} (h : cas_pattern5 s = some cap) :
    isCasShape cap = true := by
  unfold cas_pattern5 at h
  split at h
  · cases h
  · split at h
    · cases h
    · rename_i heq
      injection h with h
      exact h ▸ casShapeAt_shape heq

/-- Pattern 6 captures a CAS-shaped token. -/
theorem cas_pattern6_shape {s cap : List Char} (h : cas_pattern6 s = some cap) :
    isCasShape cap = true := by
  unfold cas_pattern6 at h
  split at h
  · cases h
  · split at h
    · cases h
    · rename_i heq
      injection h with h
      exact h ▸ casShapeAt_shape heq

/-- The word-boundary matcher captures a CAS-shaped token. -/
theorem casBareAt_shape {s cap : List Char} (h : casBareAt s = some cap) :
    isCasShape cap = true := by
  unfold casBareAt at h
  split at h
  · cases h
  · rename_i heq
    injection h with h
    exact h ▸ casShapeAt_shape heq
  · rename_i heq
    split at h
    · cases h
    · injection h with h
      exact h ▸ casShapeAt_shape heq

/-- Pattern 7 captures a CAS-shaped token. -/
theorem cas_pattern7_go_shape :
    ∀ {s : List Char} {prev : Option Char} {cap : List Char},
      cas_pattern7_go prev s = some cap → isCasShape cap = true := by
  intro s
  induction s with
  | nil => intro prev cap h; simp [cas_pattern7_go] at h
  | cons c cs ih =>
    intro prev cap h
    rw [cas_pattern7_go] at h
    by_cases hb : boundOk prev = true
    · rw [if_pos hb] at h
      split at h
      · rename_i heq
        injection h with h
        exact h ▸ casBareAt_shape heq
      · exact ih h
    · rw [if_neg hb] at h
      exact ih h

/-- Claim C8: a text containing `CAS No.: 64-17-5` yields exactly `64-17-5`
(hyphens intact, no numeric cleaning), and whenever the extracted CAS number
is not the sentinel it matches the pattern `\d{2,7}-\d{2}-\d`. -/
theorem claim_C8_cas_number :
    extract_cas_number "CAS No.: 64-17-5".toList = "64-17-5".toList
  ∧ ∀ text : List Char, extract_cas_number text ≠ ndaL →
      isCasShape (extract_cas_number text) = true := by
  constructor
  · decide
  · intro text hne
    unfold extract_cas_number at hne ⊢
    cases hf : firstSome cas_patterns text with
    | none => rw [hf] at hne; simp at hne
    | some cap =>
      show isCasShape (stripL cap) = true
      have hcap : isCasShape cap = true := by
        refine firstSome_prop (P := fun w => isCasShape w = true) ?_ hf
        intro f hfmem t w hw
        simp only [cas_patterns, List.mem_cons, List.mem_singleton] at hfmem
        rcases hfmem with rfl | rfl | rfl | rfl | rfl | rfl | rfl | hfalse
        · exact scanFor_prop (fun s v hv => cas_pattern1_shape hv) hw
        · exact scanFor_prop (fun s v hv => cas_pattern2_shape hv) hw
        · exact scanFor_prop (fun s v hv => cas_pattern3_shape hv) hw
        · exact scanFor_prop (fun s v hv => cas_pattern4_shape hv) hw
        · exact scanFor_prop (fun s v hv => cas_pattern5_shape hv) hw
        · exact scanFor_prop (fun s v hv => cas_pattern6_shape hv) hw
        · exact cas_pattern7_go_shape hw
        · cases hfalse
      rw [stripL_casShape hcap]
      exact hcap

/-- Witness for C8 applying the shape invariant at a concrete text. -/
theorem claim_C8_witness :
    isCasShape (extract_cas_number "CAS No.: 64-17-5".toList) = true :=
  claim_C8_cas_number.2 _ (by decide)

/-- Counterexample to C4 as stated: the only flammable-limits statement is the
parenthesised range `(2.1 - 12.8%)`, yet the extraction yields `"NDA"` rather
than the paired LEL/UEL result, because the paired loop attempts only the
first five patterns and both parenthesised patterns sit outside that slice. -/
theorem claim_C4_counterexample :
    extract_flammable_limits "(2.1 - 12.8%)".toList = "NDA".toList ∧
      ("NDA".toList : List Char) ≠ "LEL: 2.1%, UEL: 12.8%".toList := by
  constructor
  · decide
  · decide

/-- Claim C4 (amended): the pattern list has 12 entries but only the first
five (same-line labelled pairs and labelled range syntax) are attempted for a
paired match — the parenthesised-range pattern (index 6) does capture the pair
on `(2.1 - 12.8%)` but is never attempted, so that text yields `"NDA"`.
Labelled pairs across lines still pair; paired matches take precedence over
individual ones; individual LEL-only and UEL-only fallbacks work; a text with
only `non-combustible` yields `"Non-flammable"`; a text with neither yields
`"NDA"`. -/
theorem claim_C4_amended :
    flammable_patterns.length = 12
  ∧ (flammable_patterns.take 5).length = 5
  ∧ (flammable_patterns.get ⟨6, by decide⟩) "(2.1 - 12.8%)".toList =
      some ["2.1".toList, "12.8".toList]
  ∧ extract_flammable_limits "(2.1 - 12.8%)".toList = "NDA".toList
  ∧ extract_flammable_limits "LEL: 2.1%\nUEL: 12.8%".toList = "LEL: 2.1%, UEL: 12.8%".toList
  ∧ extract_flammable_limits "Explosive limits: 1 - 9%. LEL: 2.1%".toList =
      "LEL: 1%, UEL: 9%".toList
  ∧ extract_flammable_limits "only LEL: 2.1% here".toList = "LEL: 2.1%".toList
  ∧ extract_flammable_limits "upper explosive limit: 12.8% only".toList = "UEL: 12.8%".toList
  ∧ extract_flammable_limits "The product is non-combustible.".toList = "Non-flammable".toList
  ∧ extract_flammable_limits "Hello world".toList = "NDA".toList := by
  refine ⟨by decide, by decide, by decide, by decide, by decide, by decide, by decide,
    by decide, by decide, by decide⟩

/-- Counterexample to C9 as stated: in
`"Reaction occurs at 99 C. Pressure: 1000 Pa at 25 C."` the vapour pressure is
matched by the generic `Pressure ... (?:atm|mmHg|Pa)` pattern with unit `Pa`,
yet the value is multiplied by 760 (the source selects the conversion by the
substring test `"atm" in pattern` on the pattern string, and the generic
pattern contains `atm`), giving `"760000.0"` instead of the claimed
`1000 × 0.00750062 = "7.5"`; and the associated temperature is taken from the
first `at N C` match anywhere in the text (`"99"`), not from the `at 25 C`
adjacent to the pressure. -/
theorem claim_C9_counterexample :
    vapour_pressure_of "Reaction occurs at 99 C. Pressure: 1000 Pa at 25 C.".toList =
      .ok "760000.0".toList
  ∧ vapour_temp_of "Reaction occurs at 99 C. Pressure: 1000 Pa at 25 C.".toList = "99".toList
  ∧ ("760000.0".toList : List Char) ≠ "7.5".toList
  ∧ ("99".toList : List Char) ≠ "25".toList := by
  refine ⟨by decide, by decide, by decide, by decide⟩

/-- Claim C9 (amended): the three `Vapour pressure` unit-suffixed patterns are
tried in order atm, mmHg, Pa and convert as claimed — atm→mmHg by ×760 and
Pa→mmHg by ×0.00750062, formatted to one decimal place, while mmHg values are
kept verbatim; a fourth generic `Pressure` pattern follows them and always
multiplies by 760 regardless of the unit that matched, because the source
selects the conversion by substring tests on the pattern string; the
temperature is captured from the first `at/@ N°C` pattern anywhere in the
text, defaulting to `"21"` when absent. -/
theorem claim_C9_amended :
    vapour_pressure_of "Vapour pressure: 0.5 atm".toList = .ok "380.0".toList
  ∧ vapour_pressure_of "Vapour pressure: 5 mmHg".toList = .ok "5".toList
  ∧ vapour_pressure_of "Vapour pressure: 1000 Pa".toList = .ok "7.5".toList
  ∧ vapour_pressure_of "Pressure: 1000 Pa".toList = .ok "760000.0".toList
  ∧ vapour_pressure_of "Vapour pressure: 2 Pa in atmosphere later".toList = .ok "0.0".toList
  ∧ vapour_pressure_of "no pressure data".toList = .ok "NDA".toList
  ∧ vapour_temp_of "Flash at 99 C. Vapour pressure: 5 mmHg at 25 C".toList = "99".toList
  ∧ vapour_temp_of "no temperature here".toList = "21".toList := by
  refine ⟨by decide, by decide, by decide, by decide, by decide, by decide, by decide, by decide⟩

/-- Claim C5: every serialised Record has exactly the fixed 18 schema keys in
canonical order with every field set; and before concatenation both the new
data (Records) and the existing rows (after reindexing) carry all 18 columns
in that order, missing columns filled with the sentinel. -/
theorem claim_C5_schema :
    (∀ text fn : List Char, ∀ r : Record, parse_sds_data text fn = .ok r →
      r.toRow.map Prod.fst = COLUMNS)
  ∧ (∀ r : Record, r.toRow.map Prod.fst = COLUMNS)
  ∧ (∀ row : List (List Char × List Char),
      (reindexRow row).toRow = COLUMNS.map (fun cc => (cc, lookupRow row cc))) := by
  refine ⟨?_, ?_, ?_⟩
  · intro text fn r _
    rfl
  · intro r
    rfl
  · intro row
    rfl

/-- Witness for C5 at a concrete parse and a concrete partial row. -/
theorem claim_C5_witness :
    parse_sds_data "x".toList "f.pdf".toList =
      .ok { description := "f".toList, casNumber := "NDA".toList,
            physicalState := "NDA".toList, composition := "NDA".toList,
            staticHazard := "NDA".toList, vapourPressure := "NDA".toList,
            atTemp := "21".toList, flashPoint := "NDA".toList,
            flammableLimits := "NDA".toList, meltingPoint := "NDA".toList,
            boilingPoint := "NDA".toList, density := "NDA".toList,
            relativeVapourDensity := "NDA".toList, ignitionTemperature := "NDA".toList,
            thresholdLimitValue := "NDA".toList, immediateDanger := "NDA".toList,
            toxicologicalLD50 := "NDA".toList, sourceOfInformation := "MSDS".toList }
  ∧ ({ description := "f".toList, casNumber := "NDA".toList,
       physicalState := "NDA".toList, composition := "NDA".toList,
       staticHazard := "NDA".toList, vapourPressure := "NDA".toList,
       atTemp := "21".toList, flashPoint := "NDA".toList,
       flammableLimits := "NDA".toList, meltingPoint := "NDA".toList,
       boilingPoint := "NDA".toList, density := "NDA".toList,
       relativeVapourDensity := "NDA".toList, ignitionTemperature := "NDA".toList,
       thresholdLimitValue := "NDA".toList, immediateDanger := "NDA".toList,
       toxicologicalLD50 := "NDA".toList,
       sourceOfInformation := "MSDS".toList } : Record).toRow.map Prod.fst = COLUMNS
  ∧ (reindexRow [("Description".toList, "water".toList)]).toRow =
      COLUMNS.map (fun cc => (cc, lookupRow [("Description".toList, "water".toList)] cc)) := by
  refine ⟨by decide, ?_, ?_⟩
  · exact claim_C5_schema.2.1 _
  · exact claim_C5_schema.2.2 _

/-- Claim C10: the `Source of Information` field of every extracted Record is
the constant `"MSDS"` — never the sentinel and never derived from the text. -/
theorem claim_C10_source_constant :
    ∀ text fn : List Char, ∀ r : Record, parse_sds_data text fn = .ok r →
      r.sourceOfInformation = "MSDS".toList ∧ r.sourceOfInformation ≠ ndaL := by
  intro text fn r h
  unfold parse_sds_data at h
  cases hv : vapour_pressure_of text with
  | error e => rw [hv] at h; cases h
  | ok vp =>
    rw [hv] at h
    injection h with h
    subst h
    refine ⟨rfl, ?_⟩
    show ("MSDS".toList : List Char) ≠ ndaL
    decide

/-- Witness for C10 at a concrete parse. -/
theorem claim_C10_witness :
    ({ description := "f".toList, casNumber := "NDA".toList,
       physicalState := "NDA".toList, composition := "NDA".toList,
       staticHazard := "NDA".toList, vapourPressure := "NDA".toList,
       atTemp := "21".toList, flashPoint := "NDA".toList,
       flammableLimits := "NDA".toList, meltingPoint := "NDA".toList,
       boilingPoint := "NDA".toList, density := "NDA".toList,
       relativeVapourDensity := "NDA".toList, ignitionTemperature := "NDA".toList,
       thresholdLimitValue := "NDA".toList, immediateDanger := "NDA".toList,
       toxicologicalLD50 := "NDA".toList,
       sourceOfInformation := "MSDS".toList } : Record).sourceOfInformation = "MSDS".toList ∧
    ({ description := "f".toList, casNumber := "NDA".toList,
       physicalState := "NDA".toList, composition := "NDA".toList,
       staticHazard := "NDA".toList, vapourPressure := "NDA".toList,
       atTemp := "21".toList, flashPoint := "NDA".toList,
       flammableLimits := "NDA".toList, meltingPoint := "NDA".toList,
       boilingPoint := "NDA".toList, density := "NDA".toList,
       relativeVapourDensity := "NDA".toList, ignitionTemperature := "NDA".toList,
       thresholdLimitValue := "NDA".toList, immediateDanger := "NDA".toList,
       toxicologicalLD50 := "NDA".toList,
       sourceOfInformation := "MSDS".toList } : Record).sourceOfInformation ≠ ndaL :=
  claim_C10_source_constant "x".toList "f.pdf".toList _ (by decide)

/-! ### Lemmas for the merge (claim C3) -/

/-- Fieldwise view of `mergeRecord`. -/
theorem mergeRecord_get (c n : Record) (f : Field) :
    (mergeRecord c n).get f = mergeField (c.get f) (n.get f) := by
  cases f <;> rfl

/-- The group fold computes, per field, the first non-sentinel value of the
group (in order), with the seed's value as the default. -/
theorem foldl_mergeRecord_get (f : Field) :
    ∀ (t : List Record) (h : Record),
      (t.foldl mergeRecord h).get f =
        ((((h :: t).map (fun r => r.get f)).find? (fun v => !isSentinelField v)).getD
          (h.get f)) := by
  intro t
  induction t with
  | nil =>
    intro h
    simp only [List.foldl_nil, List.map_cons, List.map_nil, List.find?]
    by_cases hs : isSentinelField (h.get f) = true
    · simp [hs]
    · simp only [Bool.not_eq_true] at hs
      simp [hs]
  | cons r t ih =>
    intro h
    rw [List.foldl_cons, ih (mergeRecord h r)]
    by_cases hh : isSentinelField (h.get f) = true
    · by_cases hr : isSentinelField (r.get f) = true
      · have hg : (mergeRecord h r).get f = h.get f := by
          rw [mergeRecord_get]; simp [mergeField, hh, hr]
        rw [List.map_cons, List.map_cons, List.map_cons, hg]
        rw [List.find?_cons_of_neg _ (by simp [hh]), List.find?_cons_of_neg _ (by simp [hh]),
          List.find?_cons_of_neg _ (by simp [hr])]
      · have hg : (mergeRecord h r).get f = r.get f := by
          rw [mergeRecord_get]; simp [mergeField, hh, hr]
        rw [List.map_cons, List.map_cons, List.map_cons, hg]
        rw [List.find?_cons_of_pos _ (by simp [hr]), List.find?_cons_of_neg _ (by simp [hh]),
          List.find?_cons_of_pos _ (by simp [hr])]
        simp
    · have hg : (mergeRecord h r).get f = h.get f := by
        rw [mergeRecord_get]; simp [mergeField, hh]
      rw [List.map_cons, List.map_cons, List.map_cons, hg]
      rw [List.find?_cons_of_pos _ (by simp [hh]), List.find?_cons_of_pos _ (by simp [hh])]

/-- `lookupA` finds an actual entry. -/
theorem lookupA_mem {m : List (List Char × Record)} {k : List Char} {v : Record}
    (h : lookupA m k = some v) : (k, v) ∈ m := by
  unfold lookupA at h
  cases hf : m.find? (fun p => p.1 = k) with
  | none => rw [hf] at h; cases h
  | some p =>
    rw [hf] at h
    injection h with h
    have hp := List.find?_some hf
    have hmem := List.mem_of_find?_eq_some hf
    simp only [decide_eq_true_eq] at hp
    have : p = (k, v) := by
      cases p with
      | mk a b => simp only at hp h; rw [hp, h]
    rw [← this]
    exact hmem

/-- Appending a fresh key does not disturb other lookups. -/
theorem lookupA_append_ne {m : List (List Char × Record)} {k k' : List Char} {v : Record}
    (hne : k' ≠ k) : lookupA (m ++ [(k', v)]) k = lookupA m k := by
  unfold lookupA
  rw [List.find?_append]
  cases hf : m.find? (fun p => p.1 = k) with
  | some p => simp
  | none =>
    simp only [Option.none_or]
    simp [List.find?, hne]

/-- Looking up the just-appended key when it was absent. -/
theorem lookupA_append_self {m : List (List Char × Record)} {k : List Char} {v : Record}
    (h : lookupA m k = none) : lookupA (m ++ [(k, v)]) k = some v := by
  unfold lookupA at h ⊢
  rw [List.find?_append]
  cases hf : m.find? (fun p => p.1 = k) with
  | some p => rw [hf] at h; cases h
  | none => simp [List.find?]

/-- `find?` of the updated key returns the new entry. -/
theorem find?_key_updateA {k : List Char} {v : Record} :
    ∀ {m : List (List Char × Record)} {q : List Char × Record},
      m.find? (fun p => p.1 = k) = some q →
      (updateA m k v).find? (fun p => p.1 = k) = some (k, v) := by
  intro m
  induction m with
  | nil => intro q h; simp [List.find?] at h
  | cons p m ih =>
    intro q h
    by_cases hp : p.1 = k
    · unfold updateA
      rw [List.map_cons, if_pos hp]
      rw [List.find?_cons_of_pos _ (by simp)]
    · unfold updateA at ih ⊢
      rw [List.find?_cons_of_neg _ (by simp [hp])] at h
      rw [List.map_cons, if_neg hp]
      rw [List.find?_cons_of_neg _ (by simp [hp])]
      exact ih h

/-- Updating one key rewrites its lookup. -/
theorem lookupA_updateA_self {m : List (List Char × Record)} {k : List Char}
    {cur v : Record} (h : lookupA m k = some cur) :
    lookupA (updateA m k v) k = some v := by
  unfold lookupA at h ⊢
  cases hf : m.find? (fun p => p.1 = k) with
  | none => rw [hf] at h; cases h
  | some q =>
    rw [find?_key_updateA hf]

/-- `find?` at another key ignores the update. -/
theorem find?_updateA_ne {k k' : List Char} {v : Record} (hne : k' ≠ k) :
    ∀ m : List (List Char × Record),
      (updateA m k' v).find? (fun p => p.1 = k) = m.find? (fun p => p.1 = k) := by
  intro m
  induction m with
  | nil => rfl
  | cons p m ih =>
    unfold updateA at ih ⊢
    rw [List.map_cons]
    by_cases hp : p.1 = k'
    · rw [if_pos hp]
      rw [List.find?_cons_of_neg _ (by simp [hne]),
        List.find?_cons_of_neg _ (by simp [hp, hne])]
      exact ih
    · rw [if_neg hp]
      by_cases hk : p.1 = k
      · rw [List.find?_cons_of_pos _ (by simp [hk]), List.find?_cons_of_pos _ (by simp [hk])]
      · rw [List.find?_cons_of_neg _ (by simp [hk]), List.find?_cons_of_neg _ (by simp [hk])]
        exact ih

/-- Updating one key leaves other lookups unchanged. -/
theorem lookupA_updateA_ne {m : List (List Char × Record)} {k k' : List Char} {v : Record}
    (hne : k' ≠ k) : lookupA (updateA m k' v) k = lookupA m k := by
  unfold lookupA
  rw [find?_updateA_ne hne m]

/-- `updateA` preserves length. -/
theorem length_updateA (m : List (List Char × Record)) (k : List Char) (v : Record) :
    (updateA m k v).length = m.length := by
  simp [updateA]

/-- Entries with other keys survive `updateA`. -/
theorem mem_updateA_of_ne {m : List (List Char × Record)} {p : List Char × Record}
    {k : List Char} {v : Record} (hmem : p ∈ m) (hne : p.1 ≠ k) :
    p ∈ updateA m k v := by
  unfold updateA
  have h2 := List.mem_map_of_mem (fun q => if q.1 = k then (k, v) else q) hmem
  simp only [if_neg hne] at h2
  exact h2

/-- `digitChar` of a digit is a decimal digit character. -/
theorem digitChar_isDigit {n : Nat} (h : n < 10) : (digitChar n).isDigit = true := by
  interval_cases n <;> decide

/-- `digitChar` round-trips through `toNat - 48`. -/
theorem digitChar_toNat {n : Nat} (h : n < 10) : (digitChar n).toNat - 48 = n := by
  interval_cases n <;> decide

/-- Every character rendered by `natDecAux` is a digit. -/
theorem natDecAux_digits : ∀ fuel n c, c ∈ natDecAux fuel n → c.isDigit = true := by
  intro fuel
  induction fuel with
  | zero => intro n c hc; simp [natDecAux] at hc
  | succ fuel ih =>
    intro n c hc
    unfold natDecAux at hc
    by_cases h : n < 10
    · rw [if_pos h] at hc
      simp only [List.mem_singleton] at hc
      rw [hc]; exact digitChar_isDigit h
    · rw [if_neg h] at hc
      rw [List.mem_append] at hc
      cases hc with
      | inl h1 => exact ih _ _ h1
      | inr h2 =>
        simp only [List.mem_singleton] at h2
        rw [h2]; exact digitChar_isDigit (Nat.mod_lt _ (by norm_num))

/-- `natDecAux` with enough fuel is nonempty. -/
theorem natDecAux_ne_nil : ∀ fuel n, n < fuel → natDecAux fuel n ≠ [] := by
  intro fuel
  cases fuel with
  | zero => intro n h; exact absurd h (Nat.not_lt_zero n)
  | succ fuel =>
    intro n _
    unfold natDecAux
    by_cases h10 : n < 10
    · rw [if_pos h10]; simp
    · rw [if_neg h10]; simp

/-- Folding one more digit onto a decimal value. -/
theorem decValN_append_digit (a : List Char) (c : Char) :
    decValN (a ++ [c]) = 10 * decValN a + (c.toNat - 48) := by
  unfold decValN
  rw [List.foldl_append]
  rfl

/-- `decValN` inverts `natDecAux` when the fuel suffices. -/
theorem decValN_natDecAux : ∀ fuel n, n < fuel → decValN (natDecAux fuel n) = n := by
  intro fuel
  induction fuel with
  | zero => intro n h; exact absurd h (Nat.not_lt_zero n)
  | succ fuel ih =>
    intro n h
    unfold natDecAux
    by_cases h10 : n < 10
    · rw [if_pos h10]
      show decValN [digitChar n] = n
      unfold decValN
      simp only [List.foldl_cons, List.foldl_nil, Nat.mul_zero, Nat.zero_add]
      exact digitChar_toNat h10
    · rw [if_neg h10]
      rw [decValN_append_digit]
      have hdiv : n / 10 < fuel := by
        have h1 : n / 10 < n := Nat.div_lt_self (by omega) (by norm_num)
        omega
      rw [ih (n / 10) hdiv]
      rw [digitChar_toNat (Nat.mod_lt _ (by norm_num))]
      have := Nat.div_add_mod n 10
      omega

/-- `decValN` inverts `natDec`. -/
theorem decValN_natDec (n : Nat) : decValN (natDec n) = n :=
  decValN_natDecAux (n + 1) n (Nat.lt_succ_self n)

/-- `natDec` is injective. -/
theorem natDec_inj {a b : Nat} (h : natDec a = natDec b) : a = b := by
  have h2 := decValN_natDec a
  rw [h, decValN_natDec] at h2
  exact h2.symm

/-- `natDec` renders only digits. -/
theorem natDec_digits {n : Nat} {c : Char} (hc : c ∈ natDec n) : c.isDigit = true :=
  natDecAux_digits _ _ _ hc

/-- `natDec` is never empty. -/
theorem natDec_ne_nil (n : Nat) : natDec n ≠ [] :=
  natDecAux_ne_nil _ _ (Nat.lt_succ_self n)

/-- Two synthetic no-CAS keys agree only if their indices agree: the index is
the digit run after the last underscore of the key. -/
theorem mkNoCasKey_index_inj {d e : List Char} {n m : Nat}
    (h : mkNoCasKey d n = mkNoCasKey e m) : n = m := by
  unfold mkNoCasKey at h
  rw [List.append_assoc, List.append_assoc] at h
  have h2 : d ++ '_' :: natDec n = e ++ '_' :: natDec m :=
    List.append_cancel_left h
  have hrev := congrArg List.reverse h2
  rw [List.reverse_append, List.reverse_cons, List.reverse_append, List.reverse_cons,
    List.append_assoc, List.append_assoc, List.singleton_append,
    List.singleton_append] at hrev
  have htw := congrArg (List.takeWhile Char.isDigit) hrev
  have e1 : ((natDec n).reverse ++ '_' :: d.reverse).takeWhile Char.isDigit
      = (natDec n).reverse :=
    (takeWhile_app (fun c hc => natDec_digits (List.mem_reverse.mp hc))
      (fun c t hct => by injection hct with h1 _; rw [← h1]; decide)).1
  have e2 : ((natDec m).reverse ++ '_' :: e.reverse).takeWhile Char.isDigit
      = (natDec m).reverse :=
    (takeWhile_app (fun c hc => natDec_digits (List.mem_reverse.mp hc))
      (fun c t hct => by injection hct with h1 _; rw [← h1]; decide)).1
  rw [e1, e2] at htw
  have h3 : natDec n = natDec m := by
    have h4 := congrArg List.reverse htw
    simpa using h4
  exact natDec_inj h3

/-- A CAS-shaped token starts with a digit. -/
theorem isCasShape_head_digit {v : List Char} (h : isCasShape v = true) :
    ∃ c t, v = c :: t ∧ c.isDigit = true := by
  unfold isCasShape casShapeAt at h
  by_cases hlen : 2 ≤ (v.takeWhile Char.isDigit).length ∧ (v.takeWhile Char.isDigit).length ≤ 7
  · cases v with
    | nil => simp at hlen
    | cons c t =>
      refine ⟨c, t, rfl, ?_⟩
      by_cases hc : c.isDigit = true
      · exact hc
      · simp [List.takeWhile_cons, hc] at hlen
  · rw [if_neg hlen] at h; cases h

/-- A digit is unchanged by `Char.toLower`. -/
theorem toLower_digit {c : Char} (h : c.isDigit = true) : c.toLower = c := by
  have hlt : c.toNat < 65 := by
    simp [Char.isDigit] at h
    exact lt_of_le_of_lt h.2 (by norm_num)
  unfold Char.toLower
  have h2 : ¬(c.toNat ≥ 65 ∧ c.toNat ≤ 90) := by omega
  simp [h2]

/-- A CAS-shaped string is never a synthetic no-CAS key. -/
theorem casShape_ne_noCasKey {v d : List Char} {n : Nat}
    (h : isCasShape v = true) : v ≠ mkNoCasKey d n := by
  obtain ⟨c, t, hv, hc⟩ := isCasShape_head_digit h
  rw [hv]
  unfold mkNoCasKey
  intro he
  have hx : ("no_cas_".toList : List Char) = 'n' :: "o_cas_".toList := rfl
  rw [hx, List.cons_append] at he
  injection he with h1 _
  rw [h1] at hc
  exact absurd hc (by decide)

/-- A record whose stripped CAS value is CAS-shaped is not a no-CAS record. -/
theorem casShape_not_noCasRow {r : Record}
    (h : isCasShape (stripL r.casNumber) = true) : isNoCasRow r = false := by
  obtain ⟨c, t, hv, hc⟩ := isCasShape_head_digit h
  unfold isNoCasRow
  rw [hv]
  have hlow : lowerL (c :: t) = c :: lowerL t := by
    unfold lowerL
    rw [List.map_cons, toLower_digit hc]
  rw [hlow]
  have hcn : c ≠ 'n' := by
    intro hcn
    rw [hcn] at hc
    exact absurd hc (by decide)
  simp [hcn]

/-- A string whose strip is CAS-shaped is not a merge sentinel. -/
theorem casShape_not_sentinel {v : List Char}
    (h : isCasShape (stripL v) = true) : isSentinelField v = false := by
  by_cases hs : isSentinelField v = true
  · unfold isSentinelField at hs
    simp only [Bool.or_eq_true, decide_eq_true_eq] at hs
    rcases hs with (h1 | h1) | h1 <;> rw [h1] at h <;> exact absurd h (by decide)
  · exact Bool.not_eq_true _ |>.mp hs

/-- `mergeField` keeps a non-sentinel current value. -/
theorem mergeField_keep {cur new : List Char} (h : isSentinelField cur = false) :
    mergeField cur new = cur := by
  simp [mergeField, h]

/-- Merging into a CAS-carrying record keeps its CAS value. -/
theorem mergeRecord_cas_keep {cur r : Record} {k : List Char}
    (hk : isCasShape k = true) (hc : stripL cur.casNumber = k) :
    (mergeRecord cur r).casNumber = cur.casNumber := by
  show mergeField cur.casNumber r.casNumber = cur.casNumber
  exact mergeField_keep (casShape_not_sentinel (by rw [hc]; exact hk))

/-- `lookupA` misses when no entry carries the key. -/
theorem lookupA_eq_none {m : List (List Char × Record)} {k : List Char}
    (h : ∀ p ∈ m, p.1 ≠ k) : lookupA m k = none := by
  unfold lookupA
  cases hf : m.find? (fun p => p.1 = k) with
  | none => rfl
  | some p =>
    have hp := List.find?_some hf
    simp only [decide_eq_true_eq] at hp
    exact absurd hp (h p (List.mem_of_find?_eq_some hf))

/-- A fresh synthetic no-CAS key is never present in a good dict. -/
theorem fresh_noCasKey {m : List (List Char × Record)} {d : List Char}
    (hg : GoodDict m) : lookupA m (mkNoCasKey d m.length) = none := by
  apply lookupA_eq_none
  intro p hp he
  cases hg p hp with
  | inl h1 => exact casShape_ne_noCasKey h1.1 he
  | inr h2 =>
    obtain ⟨e, i, hkd, hi⟩ := h2
    have h3 : mkNoCasKey e i = mkNoCasKey d m.length := hkd.symm.trans he
    have h4 := mkNoCasKey_index_inj h3
    omega

/-- `mergeStep` preserves the dict invariant. -/
theorem goodDict_mergeStep {m : List (List Char × Record)} {r : Record}
    (hg : GoodDict m) (hok : casOkRow r = true) : GoodDict (mergeStep m r) := by
  unfold mergeStep
  cases hl : lookupA m (rowKey r m.length) with
  | none =>
    intro p hp
    unfold GoodEntry
    rw [List.length_append]
    rw [List.mem_append] at hp
    cases hp with
    | inl hpm =>
      cases hg p hpm with
      | inl h1 => exact Or.inl h1
      | inr h2 =>
        obtain ⟨d, i, hkd, hi⟩ := h2
        exact Or.inr ⟨d, i, hkd, by simp only [List.length_singleton]; omega⟩
    | inr hpn =>
      rw [List.mem_singleton] at hpn
      rw [hpn]
      unfold rowKey
      by_cases hn : isNoCasRow r = true
      · rw [if_pos hn]
        exact Or.inr ⟨r.description, m.length, rfl, by simp only [List.length_singleton]; omega⟩
      · rw [if_neg hn]
        refine Or.inl ⟨?_, rfl⟩
        unfold casOkRow at hok
        rw [Bool.or_eq_true] at hok
        cases hok with
        | inl h1 => exact absurd h1 hn
        | inr h1 => exact h1
  | some cur =>
    intro p hp
    unfold GoodEntry
    rw [length_updateA]
    unfold updateA at hp
    rw [List.mem_map] at hp
    obtain ⟨q, hq, hqe⟩ := hp
    by_cases hqk : q.1 = rowKey r m.length
    · rw [if_pos hqk] at hqe
      rw [← hqe]
      by_cases hn : isNoCasRow r = true
      · exfalso
        have hrk : rowKey r m.length = mkNoCasKey r.description m.length := by
          unfold rowKey; rw [if_pos hn]
        rw [hrk, fresh_noCasKey hg] at hl
        cases hl
      · have hrk : rowKey r m.length = stripL r.casNumber := by
          unfold rowKey; rw [if_neg hn]
        have hshape : isCasShape (stripL r.casNumber) = true := by
          unfold casOkRow at hok
          rw [Bool.or_eq_true] at hok
          cases hok with
          | inl h1 => exact absurd h1 hn
          | inr h1 => exact h1
        have hkshape : isCasShape (rowKey r m.length) = true := by
          rw [hrk]; exact hshape
        have hcur := lookupA_mem hl
        have hcg := hg _ hcur
        have hcc : stripL cur.casNumber = rowKey r m.length := by
          cases hcg with
          | inl h1 => exact h1.2
          | inr h2 =>
            obtain ⟨d, i, hkd, _⟩ := h2
            have hkd2 : rowKey r m.length = mkNoCasKey d i := hkd
            exact absurd hkd2 (casShape_ne_noCasKey hkshape)
        refine Or.inl ⟨hkshape, ?_⟩
        have hmc : (mergeRecord cur r).casNumber = cur.casNumber :=
          mergeRecord_cas_keep hkshape hcc
        show stripL (mergeRecord cur r).casNumber = rowKey r m.length
        rw [hmc, hcc]
    · rw [if_neg hqk] at hqe
      rw [← hqe]
      exact hg q hq

/-- The invariant holds through the whole fold. -/
theorem goodDict_foldl : ∀ (rows : List Record) (m : List (List Char × Record)),
    GoodDict m → (∀ r ∈ rows, casOkRow r = true) →
    GoodDict (rows.foldl mergeStep m) := by
  intro rows
  induction rows with
  | nil => intro m hg _; exact hg
  | cons r rows ih =>
    intro m hg hok
    rw [List.foldl_cons]
    exact ih _ (goodDict_mergeStep hg (hok r (by simp)))
      (fun x hx => hok x (by simp [hx]))

/-- Folding `groupAccum` from a seed is folding `mergeRecord`. -/
theorem groupAccum_foldl : ∀ (t : List Record) (c : Record),
    t.foldl groupAccum (some c) = some (t.foldl mergeRecord c) := by
  intro t
  induction t with
  | nil => intro c; rfl
  | cons r t ih =>
    intro c
    rw [List.foldl_cons, List.foldl_cons]
    exact ih (mergeRecord c r)

/-- One merge step, viewed from the lookup of a fixed CAS-shaped key. -/
theorem lookupA_mergeStep {k : List Char} (hk : isCasShape k = true)
    (m : List (List Char × Record)) (r : Record) :
    lookupA (mergeStep m r) k =
      if belongsB k r = true then groupAccum (lookupA m k) r else lookupA m k := by
  unfold mergeStep
  by_cases hb : belongsB k r = true
  · rw [if_pos hb]
    unfold belongsB at hb
    rw [Bool.and_eq_true_iff] at hb
    obtain ⟨hn, hkey⟩ := hb
    have hn2 : isNoCasRow r = false := by simpa using hn
    have hkey2 : stripL r.casNumber = k := by simpa using hkey
    have hrk : rowKey r m.length = k := by
      unfold rowKey
      rw [hn2]
      show stripL r.casNumber = k
      exact hkey2
    rw [hrk]
    cases hl : lookupA m k with
    | none =>
      show lookupA (m ++ [(k, r)]) k = groupAccum none r
      rw [lookupA_append_self hl]
      rfl
    | some cur =>
      show lookupA (updateA m k (mergeRecord cur r)) k = groupAccum (some cur) r
      rw [lookupA_updateA_self hl]
      rfl
  · rw [if_neg hb]
    have hrk : rowKey r m.length ≠ k := by
      unfold rowKey
      by_cases hn : isNoCasRow r = true
      · rw [if_pos hn]
        intro he
        exact casShape_ne_noCasKey hk he.symm
      · rw [if_neg hn]
        intro he
        apply hb
        unfold belongsB
        have hn2 : isNoCasRow r = false := by simpa using hn
        simp [hn2, he]
    cases hl : lookupA m (rowKey r m.length) with
    | none =>
      show lookupA (m ++ [(rowKey r m.length, r)]) k = lookupA m k
      exact lookupA_append_ne hrk
    | some cur =>
      show lookupA (updateA m (rowKey r m.length) (mergeRecord cur r)) k = lookupA m k
      exact lookupA_updateA_ne hrk

/-- The lookup of a CAS-shaped key after the whole fold is the `groupAccum`
fold of exactly that key group, in row order. -/
theorem lookup_foldl_group {k : List Char} (hk : isCasShape k = true) :
    ∀ (rows : List Record) (m : List (List Char × Record)),
      lookupA (rows.foldl mergeStep m) k =
        (rows.filter (belongsB k)).foldl groupAccum (lookupA m k) := by
  intro rows
  induction rows with
  | nil => intro m; rfl
  | cons r rows ih =>
    intro m
    rw [List.foldl_cons, ih (mergeStep m r), lookupA_mergeStep hk]
    by_cases hb : belongsB k r = true
    · rw [if_pos hb, List.filter_cons_of_pos hb, List.foldl_cons]
    · rw [if_neg hb, List.filter_cons_of_neg (by simpa using hb)]

/-- Updating a CAS-keyed entry with a CAS-carrying record does not change the
no-CAS rows among the dict values. -/
theorem filter_noCas_updateA {k : List Char} {v : Record} (hv : isNoCasRow v = false) :
    ∀ (m : List (List Char × Record)),
      (∀ q ∈ m, q.1 = k → isNoCasRow q.2 = false) →
      ((updateA m k v).map Prod.snd).filter (fun x => isNoCasRow x) =
        (m.map Prod.snd).filter (fun x => isNoCasRow x) := by
  intro m
  induction m with
  | nil => intro _; rfl
  | cons q m ih =>
    intro hq
    unfold updateA at ih ⊢
    rw [List.map_cons, List.map_cons, List.map_cons]
    by_cases hqk : q.1 = k
    · rw [if_pos hqk]
      have h2 : isNoCasRow q.2 = false := hq q (by simp) hqk
      rw [List.filter_cons_of_neg (by simpa using hv),
        List.filter_cons_of_neg (by simpa using h2)]
      exact ih (fun x hx hxk => hq x (by simp [hx]) hxk)
    · rw [if_neg hqk]
      by_cases hs : isNoCasRow q.2 = true
      · rw [List.filter_cons_of_pos (by simpa using hs),
          List.filter_cons_of_pos (by simpa using hs)]
        rw [ih (fun x hx hxk => hq x (by simp [hx]) hxk)]
      · rw [List.filter_cons_of_neg (by simpa using hs),
          List.filter_cons_of_neg (by simpa using hs)]
        exact ih (fun x hx hxk => hq x (by simp [hx]) hxk)

/-- One merge step appends exactly the no-CAS rows (unchanged) to the no-CAS
part of the dict values. -/
theorem filter_noCas_mergeStep {m : List (List Char × Record)} {r : Record}
    (hg : GoodDict m) (hok : casOkRow r = true) :
    ((mergeStep m r).map Prod.snd).filter (fun x => isNoCasRow x) =
      ((m.map Prod.snd).filter (fun x => isNoCasRow x)) ++
        (if isNoCasRow r = true then [r] else []) := by
  unfold mergeStep
  by_cases hn : isNoCasRow r = true
  · have hrk : rowKey r m.length = mkNoCasKey r.description m.length := by
      unfold rowKey; rw [if_pos hn]
    rw [hrk, fresh_noCasKey hg]
    show ((m ++ [(mkNoCasKey r.description m.length, r)]).map Prod.snd).filter _ = _
    rw [List.map_append, List.filter_append, if_pos hn]
    congr 1
    show List.filter _ [r] = [r]
    rw [List.filter_cons_of_pos (by simpa using hn)]
    rfl
  · rw [if_neg hn]
    have hrk : rowKey r m.length = stripL r.casNumber := by
      unfold rowKey; rw [if_neg hn]
    have hshape : isCasShape (stripL r.casNumber) = true := by
      unfold casOkRow at hok
      rw [Bool.or_eq_true] at hok
      cases hok with
      | inl h1 => exact absurd h1 hn
      | inr h1 => exact h1
    rw [hrk]
    cases hl : lookupA m (stripL r.casNumber) with
    | none =>
      show ((m ++ [(stripL r.casNumber, r)]).map Prod.snd).filter _ = _
      rw [List.map_append, List.filter_append]
      have h3 : List.filter (fun x => isNoCasRow x) [r] = [] := by
        rw [List.filter_cons_of_neg (by simpa using hn)]
        rfl
      show _ ++ List.filter _ [r] = _
      rw [h3, List.append_nil]
    | some cur =>
      show ((updateA m (stripL r.casNumber) (mergeRecord cur r)).map Prod.snd).filter _ = _
      have hcur := lookupA_mem hl
      have hcg := hg _ hcur
      have hcc : stripL cur.casNumber = stripL r.casNumber := by
        cases hcg with
        | inl h1 => exact h1.2
        | inr h2 =>
          obtain ⟨d, i, hkd, _⟩ := h2
          have hkd2 : stripL r.casNumber = mkNoCasKey d i := hkd
          exact absurd hkd2 (casShape_ne_noCasKey hshape)
      have hmc : (mergeRecord cur r).casNumber = cur.casNumber :=
        mergeRecord_cas_keep hshape hcc
      have hv : isNoCasRow (mergeRecord cur r) = false := by
        apply casShape_not_noCasRow
        rw [hmc, hcc]
        exact hshape
      have hq : ∀ q ∈ m, q.1 = stripL r.casNumber → isNoCasRow q.2 = false := by
        intro q hqm hqk
        cases hg q hqm with
        | inl h1 =>
          apply casShape_not_noCasRow
          rw [h1.2, hqk]
          exact hshape
        | inr h2 =>
          obtain ⟨d, i, hkd, _⟩ := h2
          rw [hqk] at hkd
          exact absurd hkd (casShape_ne_noCasKey hshape)
      rw [filter_noCas_updateA hv m hq, List.append_nil]

/-- Over the whole fold, the no-CAS rows among the dict values are exactly the
no-CAS input rows, unchanged and in order. -/
theorem filter_noCas_foldl : ∀ (rows : List Record) (m : List (List Char × Record)),
    GoodDict m → (∀ r ∈ rows, casOkRow r = true) →
    ((rows.foldl mergeStep m).map Prod.snd).filter (fun x => isNoCasRow x) =
      ((m.map Prod.snd).filter (fun x => isNoCasRow x)) ++
        rows.filter (fun x => isNoCasRow x) := by
  intro rows
  induction rows with
  | nil => intro m _ _; simp
  | cons r rows ih =>
    intro m hg hok
    rw [List.foldl_cons]
    rw [ih (mergeStep m r) (goodDict_mergeStep hg (hok r (by simp)))
      (fun x hx => hok x (by simp [hx]))]
    rw [filter_noCas_mergeStep hg (hok r (by simp))]
    by_cases hn : isNoCasRow r = true
    · rw [if_pos hn, List.filter_cons_of_pos (by simpa using hn), List.append_assoc]
      rfl
    · rw [if_neg hn, List.filter_cons_of_neg (by simpa using hn), List.append_nil]

/-- **C3.** When merging is off, `merge_by_cas_number_optional` returns the
rows unchanged.  When merging is on (for rows whose CAS value is either a
merge sentinel or a proper CAS-shaped token, the invariant of claim C8): the
no-CAS rows pass through unchanged, in order and without ever being merged
with each other, even when their descriptions coincide; and for every
CAS-shaped key, the rows of that group collapse to the single record obtained
by folding `mergeRecord` from the first row of the group, which — field by
field — is the first non-sentinel value of the group in iteration order, with
the seeding first row supplying the default.  In particular the two water
records sharing CAS "7732-18-5", the first with sentinel density and the
second with density "1.0", merge into the single expected record with density
"1.0". -/
theorem claim_C3_merge (rows : List Record)
    (hok : ∀ r ∈ rows, casOkRow r = true) :
    merge_by_cas_number_optional rows false = rows
    ∧ (merge_by_cas_number_optional rows true).filter (fun x => isNoCasRow x) =
        rows.filter (fun x => isNoCasRow x)
    ∧ (∀ k h t, isCasShape k = true → rows.filter (belongsB k) = h :: t →
        t.foldl mergeRecord h ∈ merge_by_cas_number_optional rows true
        ∧ ∀ f, (t.foldl mergeRecord h).get f =
            ((((h :: t).map (fun x => x.get f)).find? (fun v => !isSentinelField v)).getD
              (h.get f)))
    ∧ merge_by_cas_number_optional [waterA, waterB] true = [waterMerged] := by
  refine ⟨?_, ?_, ?_, by decide⟩
  · by_cases he : rows.isEmpty = true
    · unfold merge_by_cas_number_optional
      rw [if_pos he]
      exact (List.isEmpty_iff.mp he).symm
    · unfold merge_by_cas_number_optional
      rw [if_neg he]
      rfl
  · by_cases he : rows.isEmpty = true
    · have h0 : rows = [] := List.isEmpty_iff.mp he
      rw [h0]
      rfl
    · unfold merge_by_cas_number_optional
      rw [if_neg he]
      show ((rows.foldl mergeStep []).map Prod.snd).filter _ = _
      rw [filter_noCas_foldl rows [] (fun p hp => absurd hp (List.not_mem_nil p)) hok]
      rfl
  · intro k h t hk hft
    have hne : rows.isEmpty = false := by
      cases rows with
      | nil => rw [List.filter_nil] at hft; cases hft
      | cons a l => rfl
    have hout : merge_by_cas_number_optional rows true =
        (rows.foldl mergeStep []).map Prod.snd := by
      unfold merge_by_cas_number_optional
      rw [hne]
      rfl
    have hlook : lookupA (rows.foldl mergeStep []) k = some (t.foldl mergeRecord h) := by
      rw [lookup_foldl_group hk rows []]
      show (rows.filter (belongsB k)).foldl groupAccum none = _
      rw [hft, List.foldl_cons]
      show t.foldl groupAccum (some h) = _
      exact groupAccum_foldl t h
    constructor
    · rw [hout]
      exact List.mem_map_of_mem Prod.snd (lookupA_mem hlook)
    · intro f
      exact foldl_mergeRecord_get f t h

/-- Witness for C3: the concrete water rows satisfy the CAS invariant, survive
unchanged with merging off, and collapse to the expected single record with
merging on. -/
theorem claim_C3_witness :
    (∀ r ∈ [waterA, waterB], casOkRow r = true)
    ∧ merge_by_cas_number_optional [waterA, waterB] false = [waterA, waterB]
    ∧ merge_by_cas_number_optional [waterA, waterB] true = [waterMerged] :=
  ⟨by decide, (claim_C3_merge [waterA, waterB] (by decide)).1,
    (claim_C3_merge [waterA, waterB] (by decide)).2.2.2⟩

/-- Counterexample to C2: with mode "both", a new record sharing the CAS of an
existing record but carrying a different description is new on exactly one
criterion (description), yet it is excluded from the output. -/
theorem claim_C2_counterexample :
    casNew [waterA] dupCasRec = false
    ∧ descNew [waterA] dupCasRec = true
    ∧ check_for_duplicates [waterA] [dupCasRec] ("both".toList) = [] := by
  decide

/-- **C2 (amended).** With mode "both" and a nonempty existing dataset, a new
record is kept exactly when it is new on both criteria: it is excluded
whenever it matches the existing data on either the CAS Number (stripped,
lowered, existing "nda" values ignored) or the Description (stripped,
lowered). -/
theorem claim_C2_amended (existing new : List Record) (r : Record)
    (hne : existing ≠ []) :
    r ∈ check_for_duplicates existing new ("both".toList) ↔
      r ∈ new ∧ casNew existing r = true ∧ descNew existing r = true := by
  unfold check_for_duplicates
  rw [if_neg (by decide),
    if_neg (fun h0 => hne (List.length_eq_zero.mp h0)),
    if_pos rfl, List.mem_filter, Bool.and_eq_true_iff]

/-- Witness for C2 at a concrete nonempty existing dataset. -/
theorem claim_C2_witness :
    ([waterA] ≠ ([] : List Record))
    ∧ (dupCasRec ∈ check_for_duplicates [waterA] [dupCasRec] ("both".toList) ↔
        dupCasRec ∈ [dupCasRec] ∧ casNew [waterA] dupCasRec = true
          ∧ descNew [waterA] dupCasRec = true) :=
  ⟨by decide, claim_C2_amended [waterA] [dupCasRec] dupCasRec (by decide)⟩

/-- A file whose text strips to empty contributes nothing. -/
theorem collectStep_skip {acc : List Record} {fp : List Char × List Char}
    (h : (stripL fp.2).isEmpty = true) : collectStep acc fp = acc := by
  unfold collectStep
  rw [if_pos h]

/-- The extraction loop of a batch of strip-empty files keeps its
accumulator. -/
theorem collect_aux : ∀ (files : List (List Char × List Char)),
    (∀ fp ∈ files, (stripL fp.2).isEmpty = true) →
    ∀ acc, files.foldl collectStep acc = acc := by
  intro files
  induction files with
  | nil => intro _ acc; rfl
  | cons fp files ih =>
    intro h acc
    rw [List.foldl_cons, collectStep_skip (h fp (by simp))]
    exact ih (fun x hx => h x (by simp [hx])) acc

/-- `all_data` of an all-empty batch is empty. -/
theorem collectData_all_empty {files : List (List Char × List Char)}
    (h : ∀ fp ∈ files, (stripL fp.2).isEmpty = true) : collectData files = [] :=
  collect_aux files h []

/-- **C1.** (code bug)  The empty-batch half of the claim holds: when every
input text strips to empty, the task returns the batch-empty failure.  The
success half is false for every input: the task never returns a success value
at all, because building the success dict reads the undefined name `message`
(tasks.py line 699) and the resulting `NameError` is converted by the
catch-all handler into a task-error failure — in particular for a one-file
batch with extractable text, where the claim promises a success. -/
theorem claim_C1_task_outcome :
    (∀ files excel md dc, (∀ fp ∈ files, (stripL fp.2).isEmpty = true) →
        process_sds_files files excel md dc = TaskResult.failure noValidDataMsg)
    ∧ (∀ files excel md dc,
        process_sds_files files excel md dc = TaskResult.failure noValidDataMsg
        ∨ process_sds_files files excel md dc = TaskResult.failure taskErrorMsg)
    ∧ process_sds_files [("a.pdf".toList, "hello".toList)] none false ("none".toList)
        = TaskResult.failure taskErrorMsg := by
  refine ⟨?_, ?_, by decide⟩
  · intro files excel md dc h
    unfold process_sds_files
    rw [collectData_all_empty h]
    rfl
  · intro files excel md dc
    unfold process_sds_files
    by_cases he : (collectData files).isEmpty = true
    · left; simp [he]
    · right; simp [he]

/-- Witness for C1: a concrete all-empty batch yields the batch-empty
failure. -/
theorem claim_C1_witness :
    (∀ fp ∈ [(("a.pdf".toList : List Char), ("   ".toList : List Char))],
        (stripL fp.2).isEmpty = true)
    ∧ process_sds_files [("a.pdf".toList, "   ".toList)] none false ("none".toList)
        = TaskResult.failure noValidDataMsg :=
  ⟨by decide, claim_C1_task_outcome.1 [("a.pdf".toList, "   ".toList)] none false
    ("none".toList) (by decide)⟩

end SDS
